import Mathlib

/-!
# yaPushButton: debounced push buttons with autorepeat

A shallow embedding of `src/yaPushButton.h` (classes `PushButton`,
`PushButtonAutoRepeat`, `PushButton2SpeedAutoRepeat`,
`PushButtonAutoAcceleratedRepeat`) and theorems about it.

Modelling conventions.

* `unsigned long` is the 32 bit unsigned integer of the Arduino targets: values
  are natural numbers, subtraction and addition are taken modulo `2 ^ 32`
  (`usub`, `uadd`).
* One poll (one call of `stateChanged`, `heldDown` or `handle`) receives the
  value `currentButtonState` that `isPressed()` returns on that poll and the
  value `millis` that `millis()` returns during that poll.
* The class hierarchy is a chain of structure extensions; a member function
  becomes a function from the object before the call to the object after the
  call (paired with the returned value, if any).
* `handle` does not return a value; its second component is the list of the
  callback invocations it makes, in program order.
* Clock values and `unsigned long` members are meant to lie below `2 ^ 32`;
  theorems that need this say so in a hypothesis.
-/

namespace YaPushButton

/-! ## Machine arithmetic -/

/-- Number of values of an `unsigned long` (32 bits). -/
def ULONG_RANGE : Nat := 4294967296

/-- The `unsigned long` subtraction `a - b`, wrapping modulo `2 ^ 32`. -/
def usub (a b : Nat) : Nat := (a + (ULONG_RANGE - b % ULONG_RANGE)) % ULONG_RANGE

/-- The `unsigned long` addition `a + b`, wrapping modulo `2 ^ 32`. -/
def uadd (a b : Nat) : Nat := (a + b) % ULONG_RANGE

/-! ## `enum ButtonStateChange` (line 25) -/

def BUTTON_NOCHANGE : Nat := 0
def BUTTON_PRESSED : Nat := 1
def BUTTON_RELEASED : Nat := 2

/-! ## `class PushButton` (lines 36-148) -/

/-- Data members of `PushButton<ACT>`. -/
structure PushButton where
  pin : Nat
  debounceDelay : Nat
  stateChangedTimeStamp : Nat
  debounceWaiting : Bool
  previousButtonState : Bool
  singlePress : Bool
deriving DecidableEq, Repr

/-- The member `isPressed()`: the pin level read by `digitalRead`, corrected by
the polarity `ACT` (line 114). -/
def isPressed (ACT : Bool) (pinLevel : Bool) : Bool :=
  if ACT then pinLevel else !pinLevel

/-- The member `PushButton::init()` (lines 67-73); `pinMode` has no effect on
the data members. -/
def PushButton.init (b : PushButton) : PushButton :=
  { b with debounceWaiting := false, previousButtonState := false }

/-- The expression `(previousButtonState<<1) | currentButtonState` of line 133,
converted to `byte`. -/
def edgeCode (previousButtonState currentButtonState : Bool) : Nat :=
  ((previousButtonState.toNat <<< 1) ||| currentButtonState.toNat) % 256

/-- The member `PushButton::stateChanged()` (lines 123-147). -/
def PushButton.stateChanged (b : PushButton) (currentButtonState : Bool) (millis : Nat) :
    PushButton × Nat :=
  if b.debounceWaiting then
    if usub millis b.stateChangedTimeStamp > b.debounceDelay then
      ({ b with debounceWaiting := false, previousButtonState := currentButtonState },
        if Bool.xor b.previousButtonState currentButtonState
        then edgeCode b.previousButtonState currentButtonState
        else BUTTON_NOCHANGE)
    else (b, BUTTON_NOCHANGE)
  else
    if Bool.xor b.previousButtonState currentButtonState then
      ({ b with debounceWaiting := true, stateChangedTimeStamp := millis }, BUTTON_NOCHANGE)
    else (b, BUTTON_NOCHANGE)

/-! ## `class PushButtonAutoRepeat` (lines 161-300) -/

/-- Data members of `PushButtonAutoRepeat<ACT>`. The callback pointer is
`none` when it is `NULL`, and otherwise names the registered function. -/
structure PushButtonAutoRepeat extends PushButton where
  repeatDelay : Nat
  repeatPeriod : Nat
  keyPressCallback : Option Nat
  lastChangeTime : Nat
deriving DecidableEq, Repr

/-- The member `PushButtonAutoRepeat::init()` (lines 198-202). -/
def PushButtonAutoRepeat.init (b : PushButtonAutoRepeat) : PushButtonAutoRepeat :=
  { b with toPushButton := { b.toPushButton.init with singlePress := false } }

/-- The constructor of `PushButtonAutoRepeat` (lines 189-195, with the base
class constructor of lines 61-64). The two members that no constructor
initialises, `stateChangedTimeStamp` and `lastChangeTime`, hold the arbitrary
values `uninit.1` and `uninit.2`. -/
def PushButtonAutoRepeat.new (pbPin : Nat) (KeyPressCallBackFunction : Option Nat)
    (RepeatDelay AutoRepeatingPeriod DebounceDelay : Nat) (uninit : Nat × Nat) :
    PushButtonAutoRepeat :=
  { pin := pbPin, debounceDelay := DebounceDelay, stateChangedTimeStamp := uninit.1,
    debounceWaiting := false, previousButtonState := false, singlePress := false,
    repeatDelay := RepeatDelay, repeatPeriod := AutoRepeatingPeriod,
    keyPressCallback := KeyPressCallBackFunction, lastChangeTime := uninit.2 }

/-- The member `PushButtonAutoRepeat::heldDown()` (lines 241-273). -/
def PushButtonAutoRepeat.heldDown (b : PushButtonAutoRepeat) (currentButtonState : Bool)
    (millis : Nat) : PushButtonAutoRepeat × Nat :=
  if b.debounceWaiting then
    if usub millis b.stateChangedTimeStamp > b.debounceDelay then
      ({ b with debounceWaiting := false, previousButtonState := currentButtonState },
        if !b.previousButtonState && currentButtonState
        then usub millis b.stateChangedTimeStamp
        else 0)
    else (b, 0)
  else
    if Bool.xor b.previousButtonState currentButtonState then
      ({ b with debounceWaiting := true, stateChangedTimeStamp := millis }, 0)
    else
      if b.previousButtonState && currentButtonState then
        (b, usub millis b.stateChangedTimeStamp)
      else
        ({ b with previousButtonState := currentButtonState }, 0)

/-- A callback invocation made by `handle()`, named after the branch that makes
it: the first notice of a key press, or an automatic repetition. -/
inductive Fire where
  | primaryPress
  | autoRepeat
deriving DecidableEq, Repr

/-- The statements of `PushButtonAutoRepeat::handle()` that follow the call of
`heldDown()` (lines 283-298), for the held duration `bpDur` that call returned. -/
def PushButtonAutoRepeat.handleHeld (b : PushButtonAutoRepeat) (bpDur : Nat) (millis : Nat) :
    PushButtonAutoRepeat × List Fire :=
  let p : PushButtonAutoRepeat × List Fire :=
    if !b.singlePress && bpDur != 0 then
      ({ b with singlePress := true, lastChangeTime := millis }, [Fire.primaryPress])
    else (b, [])
  let q : PushButtonAutoRepeat × List Fire :=
    if bpDur > p.1.repeatDelay then
      if usub millis p.1.lastChangeTime > p.1.repeatPeriod then
        ({ p.1 with lastChangeTime := millis }, p.2 ++ [Fire.autoRepeat])
      else p
    else p
  if bpDur = 0 then ({ q.1 with singlePress := false }, q.2) else q

/-- The member `PushButtonAutoRepeat::handle()` (lines 280-299). -/
def PushButtonAutoRepeat.handle (b : PushButtonAutoRepeat) (currentButtonState : Bool)
    (millis : Nat) : PushButtonAutoRepeat × List Fire :=
  (b.heldDown currentButtonState millis).1.handleHeld
    (b.heldDown currentButtonState millis).2 millis

/-! ## `class PushButton2SpeedAutoRepeat` (lines 314-416) -/

/-- Data members of `PushButton2SpeedAutoRepeat<ACT>`. -/
structure PushButton2SpeedAutoRepeat extends PushButtonAutoRepeat where
  repeatDelayAcc : Nat
  repeatPeriodAcc : Nat
deriving DecidableEq, Repr

/-- The constructor of `PushButton2SpeedAutoRepeat` (lines 336-345); the
assertion of line 343 exists in debug builds only and is not part of it. -/
def PushButton2SpeedAutoRepeat.new (pbPin : Nat) (KeyPressCallBackFunction : Option Nat)
    (RepeatDelay AutoRepeatingPeriod RepeatAccelerateDelay RepeatPeriodAcc DebounceDelay : Nat)
    (uninit : Nat × Nat) : PushButton2SpeedAutoRepeat :=
  { toPushButtonAutoRepeat := PushButtonAutoRepeat.new pbPin KeyPressCallBackFunction
      RepeatDelay AutoRepeatingPeriod DebounceDelay uninit,
    repeatDelayAcc := RepeatAccelerateDelay, repeatPeriodAcc := RepeatPeriodAcc }

/-- The statements of `PushButton2SpeedAutoRepeat::handle()` that follow the
call of `heldDown()` (lines 387-414), for the held duration `bpDur` that call
returned. -/
def PushButton2SpeedAutoRepeat.handleHeld (b : PushButton2SpeedAutoRepeat) (bpDur : Nat)
    (millis : Nat) : PushButton2SpeedAutoRepeat × List Fire :=
  let p : PushButton2SpeedAutoRepeat × List Fire :=
    if !b.singlePress && bpDur > b.debounceDelay then
      ({ b with singlePress := true, lastChangeTime := millis }, [Fire.primaryPress])
    else (b, [])
  let q : PushButton2SpeedAutoRepeat × List Fire :=
    if bpDur > p.1.repeatDelay then
      if bpDur > p.1.repeatDelayAcc then
        if usub millis p.1.lastChangeTime > p.1.repeatPeriodAcc then
          ({ p.1 with lastChangeTime := millis }, p.2 ++ [Fire.autoRepeat])
        else p
      else
        if usub millis p.1.lastChangeTime > p.1.repeatPeriod then
          ({ p.1 with lastChangeTime := millis }, p.2 ++ [Fire.autoRepeat])
        else p
    else p
  if bpDur = 0 then ({ q.1 with singlePress := false }, q.2) else q

/-- The member `PushButton2SpeedAutoRepeat::handle()` (lines 384-415); the call
of the inherited `heldDown()` updates the `PushButtonAutoRepeat` part. -/
def PushButton2SpeedAutoRepeat.handle (b : PushButton2SpeedAutoRepeat)
    (currentButtonState : Bool) (millis : Nat) : PushButton2SpeedAutoRepeat × List Fire :=
  PushButton2SpeedAutoRepeat.handleHeld
    { b with toPushButtonAutoRepeat :=
        (b.toPushButtonAutoRepeat.heldDown currentButtonState millis).1 }
    (b.toPushButtonAutoRepeat.heldDown currentButtonState millis).2 millis

/-! ## `class PushButtonAutoAcceleratedRepeat` (lines 431-546) -/

/-- Data members of `PushButtonAutoAcceleratedRepeat<ACT>`. -/
structure PushButtonAutoAcceleratedRepeat extends PushButtonAutoRepeat where
  repeatDelayAcc : Nat
  repeatAcc : Nat
  repeatMinPeriod : Nat
  currentRepeatPeriod : Nat
deriving DecidableEq, Repr

/-- The constructor of `PushButtonAutoAcceleratedRepeat` (lines 458-469); the
assertion of line 467 exists in debug builds only and is not part of it. The
member `currentRepeatPeriod`, which the constructor does not initialise, holds
the arbitrary value `uninitPeriod`. -/
def PushButtonAutoAcceleratedRepeat.new (pbPin : Nat) (KeyPressCallBackFunction : Option Nat)
    (RepeatDelay AutoRepeatingPeriod RepeatDelayAcc RepeatAcc repeatMinPeriod DebounceDelay : Nat)
    (uninit : Nat × Nat) (uninitPeriod : Nat) : PushButtonAutoAcceleratedRepeat :=
  { toPushButtonAutoRepeat := PushButtonAutoRepeat.new pbPin KeyPressCallBackFunction
      RepeatDelay AutoRepeatingPeriod DebounceDelay uninit,
    repeatDelayAcc := RepeatDelayAcc, repeatAcc := RepeatAcc,
    repeatMinPeriod := repeatMinPeriod, currentRepeatPeriod := uninitPeriod }

/-- The statements of `PushButtonAutoAcceleratedRepeat::handle()` that follow
the call of `heldDown()` (lines 525-544), for the held duration `bpDur` that
call returned. -/
def PushButtonAutoAcceleratedRepeat.handleHeld (b : PushButtonAutoAcceleratedRepeat)
    (bpDur : Nat) (millis : Nat) : PushButtonAutoAcceleratedRepeat × List Fire :=
  let p : PushButtonAutoAcceleratedRepeat × List Fire :=
    if !b.singlePress && bpDur > b.debounceDelay then
      ({ b with singlePress := true, lastChangeTime := millis,
                currentRepeatPeriod := b.repeatPeriod }, [Fire.primaryPress])
    else (b, [])
  let q : PushButtonAutoAcceleratedRepeat × List Fire :=
    if bpDur > p.1.repeatDelay then
      if usub millis p.1.lastChangeTime > uadd p.1.currentRepeatPeriod p.1.repeatMinPeriod then
        ({ p.1 with
            currentRepeatPeriod :=
              if p.1.currentRepeatPeriod ≥ p.1.repeatAcc
              then p.1.currentRepeatPeriod - p.1.repeatAcc
              else p.1.currentRepeatPeriod,
            lastChangeTime := millis }, p.2 ++ [Fire.autoRepeat])
      else p
    else p
  if bpDur = 0 then ({ q.1 with singlePress := false }, q.2) else q

/-- The member `PushButtonAutoAcceleratedRepeat::handle()` (lines 522-545); the
call of the inherited `heldDown()` updates the `PushButtonAutoRepeat` part. -/
def PushButtonAutoAcceleratedRepeat.handle (b : PushButtonAutoAcceleratedRepeat)
    (currentButtonState : Bool) (millis : Nat) :
    PushButtonAutoAcceleratedRepeat × List Fire :=
  PushButtonAutoAcceleratedRepeat.handleHeld
    { b with toPushButtonAutoRepeat :=
        (b.toPushButtonAutoRepeat.heldDown currentButtonState millis).1 }
    (b.toPushButtonAutoRepeat.heldDown currentButtonState millis).2 millis

/-! ## The three autorepeat classes as one tagged object -/

/-- An object of one of the three classes that have a `handle()` member. -/
inductive AutoRepeatButton where
  | fixed (b : PushButtonAutoRepeat)
  | twoSpeed (b : PushButton2SpeedAutoRepeat)
  | accelerating (b : PushButtonAutoAcceleratedRepeat)
deriving DecidableEq, Repr

/-- The `PushButton` base part of the object. -/
def AutoRepeatButton.base : AutoRepeatButton → PushButton
  | .fixed b => b.toPushButton
  | .twoSpeed b => b.toPushButton
  | .accelerating b => b.toPushButton

/-- The `PushButtonAutoRepeat` part of the object. -/
def AutoRepeatButton.autoRepeatPart : AutoRepeatButton → PushButtonAutoRepeat
  | .fixed b => b
  | .twoSpeed b => b.toPushButtonAutoRepeat
  | .accelerating b => b.toPushButtonAutoRepeat

/-- The member `init()` of the object: the derived classes inherit
`PushButtonAutoRepeat::init()`. -/
def AutoRepeatButton.init : AutoRepeatButton → AutoRepeatButton
  | .fixed b => .fixed b.init
  | .twoSpeed b => .twoSpeed { b with toPushButtonAutoRepeat := b.toPushButtonAutoRepeat.init }
  | .accelerating b =>
      .accelerating { b with toPushButtonAutoRepeat := b.toPushButtonAutoRepeat.init }

/-- The member `handle()` of the object, as its class defines it. -/
def AutoRepeatButton.handle (v : AutoRepeatButton) (currentButtonState : Bool) (millis : Nat) :
    AutoRepeatButton × List Fire :=
  match v with
  | .fixed b => (.fixed (b.handle currentButtonState millis).1,
      (b.handle currentButtonState millis).2)
  | .twoSpeed b => (.twoSpeed (b.handle currentButtonState millis).1,
      (b.handle currentButtonState millis).2)
  | .accelerating b => (.accelerating (b.handle currentButtonState millis).1,
      (b.handle currentButtonState millis).2)

/-! ## Sequences of polls -/

/-- Polls a member function `step` once for every element `(isPressed, millis)`
of the list, in order; the result lists, for every poll, the object after the
poll and what the poll produced. -/
def runPolls {σ ρ : Type} (step : σ → Bool → Nat → σ × ρ) (s : σ) :
    List (Bool × Nat) → List (σ × ρ)
  | [] => []
  | p :: ps => step s p.1 p.2 :: runPolls step (step s p.1 p.2).1 ps

/-- The object after the polls of the list (the object itself for no poll). -/
def finalState {σ ρ : Type} (step : σ → Bool → Nat → σ × ρ) (s : σ) :
    List (Bool × Nat) → σ
  | [] => s
  | p :: ps => finalState step (step s p.1 p.2).1 ps

/-- For every poll of a run of `handle()`, whether the first-notice branch made
its callback invocation on that poll. -/
def primaryTrace {σ : Type} (run : List (σ × List Fire)) : List Bool :=
  run.map (fun r => decide (Fire.primaryPress ∈ r.2))

/-- The callback invocations of a run of `handle()`, each with the clock value
of the poll that made it. -/
def callbackLog {σ : Type} (step : σ → Bool → Nat → σ × List Fire) (s : σ) :
    List (Bool × Nat) → List (Nat × Fire)
  | [] => []
  | p :: ps => (step s p.1 p.2).2.map (fun f => (p.2, f)) ++
      callbackLog step (step s p.1 p.2).1 ps

/-- The button is waiting for a press to settle: a change from released to
pressed was spotted at clock value `t0` and no key press is registered yet. -/
def SettlingPress (p : PushButton) (t0 : Nat) : Prop :=
  p.debounceWaiting = true ∧ p.previousButtonState = false ∧ p.singlePress = false ∧
    p.stateChangedTimeStamp = t0

/-- The button is settled pressed, measured from clock value `t0`, and its key
press is registered. -/
def HeldNotified (p : PushButton) (t0 : Nat) : Prop :=
  p.debounceWaiting = false ∧ p.previousButtonState = true ∧ p.singlePress = true ∧
    p.stateChangedTimeStamp = t0

/-- The test that the first-notice branch of `handle()` makes on the held
duration, next to `!singlePress`: `bpDur` itself in `PushButtonAutoRepeat`
(line 283), `bpDur > getDebounceDelay()` in the two derived classes (lines 387
and 525). -/
def AutoRepeatButton.firstNoticeTest (v : AutoRepeatButton) (bpDur : Nat) : Bool :=
  match v with
  | .fixed _ => bpDur != 0
  | .twoSpeed b => decide (bpDur > b.debounceDelay)
  | .accelerating b => decide (bpDur > b.debounceDelay)

/-- The time stamp of a button that is waiting to settle or is pressed is not
later than the clock value `t`. -/
def TimestampNotAfter (p : PushButton) (t : Nat) : Prop :=
  (p.debounceWaiting = true ∨ p.previousButtonState = true) → p.stateChangedTimeStamp ≤ t

/-- Polls every 10 ms: `n` polls at the clock values `10 * k`, `10 * (k + 1)`,
..., each sampling the raw input `raw` at its clock value. -/
def everyTenMs (raw : Nat → Bool) : Nat → Nat → List (Bool × Nat)
  | _, 0 => []
  | k, n + 1 => (raw (10 * k), 10 * k) :: everyTenMs raw (k + 1) n

/-- The raw input of the fixed-rate scenario: pressed before `t = 1000`,
released from then on. -/
def pressedUntil1000 (t : Nat) : Bool := decide (t < 1000)

/-- A press at `t = 0` that settles at `t = 60`, then one released sample at
`t = 70` while the button is held, with pressed samples after it. -/
def glitchPolls : List (Bool × Nat) :=
  [(true, 0), (true, 60), (false, 70), (true, 130), (true, 140)]

/-- The object of the fixed-rate scenario (debounce 50 ms, delay 500 ms, period
200 ms) after the poll at `t = 60`, on which the press settles and the first
notice fires. -/
def scenarioAfter60 : PushButtonAutoRepeat :=
  { pin := 0, debounceDelay := 50, stateChangedTimeStamp := 0, debounceWaiting := false,
    previousButtonState := true, singlePress := true, repeatDelay := 500, repeatPeriod := 200,
    keyPressCallback := none, lastChangeTime := 60 }

/-- An accelerating button whose `repeatPeriod` is close to the largest
`unsigned long`: repeat delay 10 ms, period `2 ^ 32 - 50` ms, floor 100 ms,
debounce 50 ms. -/
def wrappingPeriodButton : PushButtonAutoAcceleratedRepeat :=
  PushButtonAutoAcceleratedRepeat.new 2 (some 0) 10 4294967246 2000 10 100 50 (0, 0) 0

/-- The burst of the bounce scenario: pressed at `t = 0`, released at `t = 20`,
pressed at `t = 40`, and the sample `raw50` at `t = 50`. -/
def bouncePolls (raw50 : Bool) : List (Bool × Nat) :=
  [(true, 0), (false, 20), (true, 40), (raw50, 50)]

/-- An accelerating button with the default arguments of its constructor:
repeat delay 500 ms, period 200 ms, accelerate delay 2000 ms, decrement 10 ms,
floor 20 ms, debounce 50 ms. -/
def defaultAccelerating : PushButtonAutoAcceleratedRepeat :=
  PushButtonAutoAcceleratedRepeat.new 2 (some 0) 500 200 2000 10 20 50 (0, 0) 0

/-- A raw input that is pressed at every clock value. -/
def alwaysPressed (_ : Nat) : Bool := true

/-- For every poll of a run of `PushButtonAutoAcceleratedRepeat::handle` that
invokes the callback: the clock value of the poll, the held duration that
`heldDown()` returned on it, the invocations, and the value of
`currentRepeatPeriod` after the poll. -/
def periodLog (b : PushButtonAutoAcceleratedRepeat) :
    List (Bool × Nat) → List (Nat × Nat × List Fire × Nat)
  | [] => []
  | p :: ps =>
      (if (b.handle p.1 p.2).2 = [] then []
        else [(p.2, (b.toPushButtonAutoRepeat.heldDown p.1 p.2).2, (b.handle p.1 p.2).2,
          (b.handle p.1 p.2).1.currentRepeatPeriod)]) ++
      periodLog (b.handle p.1 p.2).1 ps

/-- The member `PushButtonAutoRepeat::registerKeyPressCallback` (lines 206-209). -/
def PushButtonAutoRepeat.registerKeyPressCallback (b : PushButtonAutoRepeat)
    (keyPressFunction : Option Nat) : PushButtonAutoRepeat :=
  { b with keyPressCallback := keyPressFunction }

/-- The member `registerKeyPressCallback` of the object: the derived classes
inherit it. -/
def AutoRepeatButton.registerKeyPressCallback (v : AutoRepeatButton)
    (keyPressFunction : Option Nat) : AutoRepeatButton :=
  match v with
  | .fixed b => .fixed { b with keyPressCallback := keyPressFunction }
  | .twoSpeed b => .twoSpeed { b with keyPressCallback := keyPressFunction }
  | .accelerating b => .accelerating { b with keyPressCallback := keyPressFunction }

/-- The member `handle()` with every invocation `keyPressCallback()` made through
the stored pointer, which no statement of `handle()` tests: the result lists the
functions that were called. A call through the `NULL` pointer has no defined
behaviour; a poll that makes one has no result (`none`). -/
def AutoRepeatButton.handleCalling (v : AutoRepeatButton) (currentButtonState : Bool)
    (millis : Nat) : Option (AutoRepeatButton × List Nat) :=
  match v.autoRepeatPart.keyPressCallback with
  | some f => some ((v.handle currentButtonState millis).1,
      (v.handle currentButtonState millis).2.map (fun _ => f))
  | none =>
      if (v.handle currentButtonState millis).2 = [] then
        some ((v.handle currentButtonState millis).1, [])
      else none

/-- One object of each of the three autorepeat classes, constructed with the
default `NULL` callback and the default delays and periods. -/
def defaultButtonsWithoutCallback : List AutoRepeatButton :=
  [AutoRepeatButton.fixed (PushButtonAutoRepeat.new 2 none 500 200 50 (0, 0)),
    AutoRepeatButton.twoSpeed (PushButton2SpeedAutoRepeat.new 2 none 500 200 2000 50 50 (0, 0)),
    AutoRepeatButton.accelerating
      (PushButtonAutoAcceleratedRepeat.new 2 none 500 200 2000 10 20 50 (0, 0) 0)]

/-- The time stamp of the button lies far enough before the clock value `lo`
(a lower bound of the clock values of the polls still to come): not after `lo`
while the button waits to settle, and more than `debounceDelay` before `lo`
when the button is settled pressed. -/
def SettledBefore (p : PushButton) (lo : Nat) : Prop :=
  (p.debounceWaiting = true → p.stateChangedTimeStamp ≤ lo) ∧
  (p.debounceWaiting = false → p.previousButtonState = true →
    p.stateChangedTimeStamp + p.debounceDelay < lo)

/-- The held durations that the calls of `heldDown()` return on the polls of a
run of `handle()`, one for every poll. -/
def heldTrace (v : AutoRepeatButton) : List (Bool × Nat) → List Nat
  | [] => []
  | p :: ps => (v.autoRepeatPart.heldDown p.1 p.2).2 :: heldTrace (v.handle p.1 p.2).1 ps

/-! ## Theorems -/

/-! ### Arithmetic of `unsigned long` -/

theorem usub_self (a : Nat) : usub a a = 0 := by
  unfold usub ULONG_RANGE
  omega

theorem usub_eq_sub {a b : Nat} (hba : b ≤ a) (ha : a < ULONG_RANGE) : usub a b = a - b := by
  unfold usub
  unfold ULONG_RANGE at *
  omega

theorem usub_lt (a b : Nat) : usub a b < ULONG_RANGE := by
  unfold usub ULONG_RANGE
  omega

/-! ### Single polls -/

/-- C1. A poll of `stateChanged` returns `BUTTON_PRESSED` or `BUTTON_RELEASED`
exactly when, before the poll, the button was waiting for the debounce period,
the unsigned difference `millis - stateChangedTimeStamp` is strictly greater
than `debounceDelay`, and the sample of this poll differs from
`previousButtonState`; in every other case it returns `BUTTON_NOCHANGE`. -/
theorem stateChanged_reports_only_settled_change (b : PushButton) (rawPressed : Bool)
    (nowMs : Nat) :
    (((b.stateChanged rawPressed nowMs).2 = BUTTON_PRESSED ∨
        (b.stateChanged rawPressed nowMs).2 = BUTTON_RELEASED) ↔
      (b.debounceWaiting = true ∧ usub nowMs b.stateChangedTimeStamp > b.debounceDelay ∧
        rawPressed ≠ b.previousButtonState)) ∧
    (¬ (b.debounceWaiting = true ∧ usub nowMs b.stateChangedTimeStamp > b.debounceDelay ∧
        rawPressed ≠ b.previousButtonState) →
      (b.stateChanged rawPressed nowMs).2 = BUTTON_NOCHANGE) := by
  obtain ⟨pin, dd, ts, w, prev, sp⟩ := b
  cases w <;> cases prev <;> cases rawPressed <;>
    by_cases hlt : usub nowMs ts > dd <;>
    simp [PushButton.stateChanged, hlt, edgeCode, BUTTON_NOCHANGE, BUTTON_PRESSED,
      BUTTON_RELEASED]

/-- C2. A poll of `stateChanged` returns `BUTTON_PRESSED` (1) exactly when it
changes `previousButtonState` from false to true, `BUTTON_RELEASED` (2) exactly
when it changes it from true to false, and `BUTTON_NOCHANGE` (0) exactly when it
leaves `previousButtonState` as it was; the returned value is always one of the
three, and where line 133 evaluates `(previousButtonState<<1)|currentButtonState`
(the two operands differ) the expression is 1 or 2. -/
theorem stateChanged_code_iff_stable_change (b : PushButton) (rawPressed : Bool)
    (nowMs : Nat) :
    ((b.stateChanged rawPressed nowMs).2 = BUTTON_PRESSED ↔
      (b.previousButtonState = false ∧
        (b.stateChanged rawPressed nowMs).1.previousButtonState = true)) ∧
    ((b.stateChanged rawPressed nowMs).2 = BUTTON_RELEASED ↔
      (b.previousButtonState = true ∧
        (b.stateChanged rawPressed nowMs).1.previousButtonState = false)) ∧
    ((b.stateChanged rawPressed nowMs).2 = BUTTON_NOCHANGE ↔
      (b.stateChanged rawPressed nowMs).1.previousButtonState = b.previousButtonState) ∧
    ((b.stateChanged rawPressed nowMs).2 = BUTTON_NOCHANGE ∨
      (b.stateChanged rawPressed nowMs).2 = BUTTON_PRESSED ∨
      (b.stateChanged rawPressed nowMs).2 = BUTTON_RELEASED) ∧
    (∀ prev cur : Bool, Bool.xor prev cur = true →
      (edgeCode prev cur = BUTTON_PRESSED ∧ prev = false ∧ cur = true) ∨
      (edgeCode prev cur = BUTTON_RELEASED ∧ prev = true ∧ cur = false)) := by
  refine ⟨?_, ?_, ?_, ?_, ?_⟩
  any_goals
    obtain ⟨pin, dd, ts, w, prev, sp⟩ := b
    cases w <;> cases prev <;> cases rawPressed <;>
      by_cases hlt : usub nowMs ts > dd <;>
      simp [PushButton.stateChanged, hlt, edgeCode, BUTTON_NOCHANGE, BUTTON_PRESSED,
        BUTTON_RELEASED]

/-- C5. On a poll of `PushButtonAutoRepeat::handle` on which the first-notice
branch does not fire, with `held` the value `heldDown()` returned on this poll,
the callback is invoked (once, by the repeat branch) if and only if
`held > repeatDelay` and the unsigned difference `millis - lastChangeTime` is
greater than `repeatPeriod`; when it is invoked `lastChangeTime` becomes
`millis`, and otherwise no callback is invoked and `lastChangeTime` is unchanged. -/
theorem fixed_repeat_condition (b : PushButtonAutoRepeat) (rawPressed : Bool) (nowMs : Nat)
    (hnp : Fire.primaryPress ∉ (b.handle rawPressed nowMs).2) :
    ((b.handle rawPressed nowMs).2 = [Fire.autoRepeat] ↔
      ((b.heldDown rawPressed nowMs).2 > b.repeatDelay ∧
        usub nowMs b.lastChangeTime > b.repeatPeriod)) ∧
    ((b.handle rawPressed nowMs).2 = [Fire.autoRepeat] ∨ (b.handle rawPressed nowMs).2 = []) ∧
    ((b.handle rawPressed nowMs).2 = [Fire.autoRepeat] →
      (b.handle rawPressed nowMs).1.lastChangeTime = nowMs) ∧
    ((b.handle rawPressed nowMs).2 = [] →
      (b.handle rawPressed nowMs).1.lastChangeTime = b.lastChangeTime) := by
  have hrd : (b.heldDown rawPressed nowMs).1.repeatDelay = b.repeatDelay := by
    unfold PushButtonAutoRepeat.heldDown; split_ifs <;> rfl
  have hrp : (b.heldDown rawPressed nowMs).1.repeatPeriod = b.repeatPeriod := by
    unfold PushButtonAutoRepeat.heldDown; split_ifs <;> rfl
  have hlc : (b.heldDown rawPressed nowMs).1.lastChangeTime = b.lastChangeTime := by
    unfold PushButtonAutoRepeat.heldDown; split_ifs <;> rfl
  revert hnp
  simp only [PushButtonAutoRepeat.handle, PushButtonAutoRepeat.handleHeld]
  split_ifs <;> simp_all

/-- C7. A single `handle()` call of any of the three classes invokes the
callback at most once, whatever the object, its configuration, the sample and
the clock value of the poll: the first-notice branch and the repeat branch
never both fire on one poll. -/
theorem handle_at_most_one_callback (v : AutoRepeatButton) (rawPressed : Bool) (nowMs : Nat) :
    (v.handle rawPressed nowMs).2.length ≤ 1 ∧
    ¬ (Fire.primaryPress ∈ (v.handle rawPressed nowMs).2 ∧
        Fire.autoRepeat ∈ (v.handle rawPressed nowMs).2) := by
  cases v with
  | fixed b =>
    simp only [AutoRepeatButton.handle, PushButtonAutoRepeat.handle,
      PushButtonAutoRepeat.handleHeld]
    split_ifs <;> simp_all [usub_self]
  | twoSpeed b =>
    simp only [AutoRepeatButton.handle, PushButton2SpeedAutoRepeat.handle,
      PushButton2SpeedAutoRepeat.handleHeld]
    split_ifs <;> simp_all [usub_self]
  | accelerating b =>
    simp only [AutoRepeatButton.handle, PushButtonAutoAcceleratedRepeat.handle,
      PushButtonAutoAcceleratedRepeat.handleHeld]
    split_ifs <;> simp_all [usub_self]

/-- C8. If a poll of `heldDown` returns a nonzero value then after the poll
the button is in the settled pressed state (`previousButtonState` is true and
`debounceWaiting` is false); equivalently, whenever the state after the poll is
not the settled pressed state, `heldDown` returned 0. -/
theorem heldDown_nonzero_settled_pressed (b : PushButtonAutoRepeat) (rawPressed : Bool)
    (nowMs : Nat) :
    ((b.heldDown rawPressed nowMs).2 ≠ 0 →
      (b.heldDown rawPressed nowMs).1.previousButtonState = true ∧
      (b.heldDown rawPressed nowMs).1.debounceWaiting = false) ∧
    (¬ ((b.heldDown rawPressed nowMs).1.previousButtonState = true ∧
        (b.heldDown rawPressed nowMs).1.debounceWaiting = false) →
      (b.heldDown rawPressed nowMs).2 = 0) := by
  unfold PushButtonAutoRepeat.heldDown
  split_ifs <;> simp_all

/-! ### What `heldDown` does in each situation -/

theorem heldDown_waiting_early (b : PushButtonAutoRepeat) (raw : Bool) (t : Nat)
    (hw : b.debounceWaiting = true)
    (hearly : ¬ usub t b.stateChangedTimeStamp > b.debounceDelay) :
    b.heldDown raw t = (b, 0) := by
  simp [PushButtonAutoRepeat.heldDown, hw, hearly]

theorem heldDown_press_commit (b : PushButtonAutoRepeat) (t : Nat)
    (hw : b.debounceWaiting = true) (hp : b.previousButtonState = false)
    (hlate : usub t b.stateChangedTimeStamp > b.debounceDelay) :
    b.heldDown true t =
      ({ b with debounceWaiting := false, previousButtonState := true },
        usub t b.stateChangedTimeStamp) := by
  simp [PushButtonAutoRepeat.heldDown, hw, hp, hlate]

theorem heldDown_held (b : PushButtonAutoRepeat) (t : Nat)
    (hw : b.debounceWaiting = false) (hp : b.previousButtonState = true) :
    b.heldDown true t = (b, usub t b.stateChangedTimeStamp) := by
  simp [PushButtonAutoRepeat.heldDown, hw, hp]

theorem heldDown_press_spotted (b : PushButtonAutoRepeat) (t : Nat)
    (hw : b.debounceWaiting = false) (hp : b.previousButtonState = false) :
    b.heldDown true t = ({ b with debounceWaiting := true, stateChangedTimeStamp := t }, 0) := by
  simp [PushButtonAutoRepeat.heldDown, hw, hp]

/-! ### The `PushButton` part after a poll of `handle` -/

theorem autoRepeatPart_base (v : AutoRepeatButton) :
    v.autoRepeatPart.toPushButton = v.base := by
  cases v <;> rfl

theorem fixed_handleHeld_base (b : PushButtonAutoRepeat) (d t : Nat) :
    (b.handleHeld d t).1.toPushButton =
      { b.toPushButton with
        singlePress := if d = 0 then false else (b.singlePress || (d != 0)) } ∧
    (Fire.primaryPress ∈ (b.handleHeld d t).2 ↔ (b.singlePress = false ∧ (d != 0) = true)) := by
  obtain ⟨⟨pin, dd, ts, w, prev, sp⟩, rd, rp, cb, lc⟩ := b
  simp only [PushButtonAutoRepeat.handleHeld]
  cases sp <;> split_ifs <;> simp_all

theorem twoSpeed_handleHeld_base (b : PushButton2SpeedAutoRepeat) (d t : Nat) :
    (b.handleHeld d t).1.toPushButton =
      { b.toPushButton with
        singlePress :=
          if d = 0 then false else (b.singlePress || decide (d > b.debounceDelay)) } ∧
    (Fire.primaryPress ∈ (b.handleHeld d t).2 ↔
      (b.singlePress = false ∧ decide (d > b.debounceDelay) = true)) := by
  obtain ⟨⟨⟨pin, dd, ts, w, prev, sp⟩, rd, rp, cb, lc⟩, rda, rpa⟩ := b
  simp only [PushButton2SpeedAutoRepeat.handleHeld]
  cases sp <;> split_ifs <;> simp_all

theorem accelerating_handleHeld_base (b : PushButtonAutoAcceleratedRepeat) (d t : Nat) :
    (b.handleHeld d t).1.toPushButton =
      { b.toPushButton with
        singlePress :=
          if d = 0 then false else (b.singlePress || decide (d > b.debounceDelay)) } ∧
    (Fire.primaryPress ∈ (b.handleHeld d t).2 ↔
      (b.singlePress = false ∧ decide (d > b.debounceDelay) = true)) := by
  obtain ⟨⟨⟨pin, dd, ts, w, prev, sp⟩, rd, rp, cb, lc⟩, rda, ra, rmp, crp⟩ := b
  simp only [PushButtonAutoAcceleratedRepeat.handleHeld]
  cases sp <;> split_ifs <;> simp_all

theorem heldDown_debounceDelay (b : PushButtonAutoRepeat) (raw : Bool) (t : Nat) :
    (b.heldDown raw t).1.debounceDelay = b.debounceDelay := by
  unfold PushButtonAutoRepeat.heldDown
  split_ifs <;> rfl

/-- What a poll of `handle()` does to the `PushButton` part, in terms of the
call of `heldDown()` it starts with, and when its first-notice branch fires. -/
theorem handle_base (v : AutoRepeatButton) (raw : Bool) (t : Nat) :
    (v.handle raw t).1.base =
      { (v.autoRepeatPart.heldDown raw t).1.toPushButton with
        singlePress :=
          if (v.autoRepeatPart.heldDown raw t).2 = 0 then false
          else ((v.autoRepeatPart.heldDown raw t).1.singlePress ||
            v.firstNoticeTest (v.autoRepeatPart.heldDown raw t).2) } ∧
    (Fire.primaryPress ∈ (v.handle raw t).2 ↔
      ((v.autoRepeatPart.heldDown raw t).1.singlePress = false ∧
        v.firstNoticeTest (v.autoRepeatPart.heldDown raw t).2 = true)) := by
  cases v with
  | fixed b =>
    simp only [AutoRepeatButton.handle, AutoRepeatButton.base, AutoRepeatButton.autoRepeatPart,
      AutoRepeatButton.firstNoticeTest, PushButtonAutoRepeat.handle]
    exact fixed_handleHeld_base _ _ _
  | twoSpeed b =>
    simp only [AutoRepeatButton.handle, AutoRepeatButton.base, AutoRepeatButton.autoRepeatPart,
      AutoRepeatButton.firstNoticeTest, PushButton2SpeedAutoRepeat.handle]
    have h := twoSpeed_handleHeld_base
      { b with toPushButtonAutoRepeat := (b.toPushButtonAutoRepeat.heldDown raw t).1 }
      (b.toPushButtonAutoRepeat.heldDown raw t).2 t
    simp only [heldDown_debounceDelay] at h ⊢
    exact h
  | accelerating b =>
    simp only [AutoRepeatButton.handle, AutoRepeatButton.base, AutoRepeatButton.autoRepeatPart,
      AutoRepeatButton.firstNoticeTest, PushButtonAutoAcceleratedRepeat.handle]
    have h := accelerating_handleHeld_base
      { b with toPushButtonAutoRepeat := (b.toPushButtonAutoRepeat.heldDown raw t).1 }
      (b.toPushButtonAutoRepeat.heldDown raw t).2 t
    simp only [heldDown_debounceDelay] at h ⊢
    exact h

/-! ### A continuous hold -/

theorem firstNoticeTest_zero (v : AutoRepeatButton) : v.firstNoticeTest 0 = false := by
  cases v <;> simp [AutoRepeatButton.firstNoticeTest]

theorem firstNoticeTest_of_gt (v : AutoRepeatButton) (d : Nat)
    (h : v.base.debounceDelay < d) : v.firstNoticeTest d = true := by
  cases v <;> simp [AutoRepeatButton.firstNoticeTest, AutoRepeatButton.base] at h ⊢
  · omega
  · exact h
  · exact h

theorem handle_debounceDelay (v : AutoRepeatButton) (raw : Bool) (t : Nat) :
    (v.handle raw t).1.base.debounceDelay = v.base.debounceDelay := by
  rw [(handle_base v raw t).1]
  show (v.autoRepeatPart.heldDown raw t).1.debounceDelay = _
  rw [heldDown_debounceDelay]
  exact congrArg PushButton.debounceDelay (autoRepeatPart_base v)

theorem init_debounceDelay (v : AutoRepeatButton) :
    v.init.base.debounceDelay = v.base.debounceDelay := by
  cases v <;> rfl

/-- The first poll of a press, from the initialised object: the first-notice
branch does not fire and the button starts to wait for the press to settle. -/
theorem handle_init_pressed (v : AutoRepeatButton) (t : Nat) :
    Fire.primaryPress ∉ (v.init.handle true t).2 ∧
      SettlingPress (v.init.handle true t).1.base t := by
  have hw : v.init.autoRepeatPart.debounceWaiting = false := by cases v <;> rfl
  have hp : v.init.autoRepeatPart.previousButtonState = false := by cases v <;> rfl
  obtain ⟨hbase, hprim⟩ := handle_base v.init true t
  rw [heldDown_press_spotted _ t hw hp] at hbase hprim
  constructor
  · rw [hprim]
    simp [firstNoticeTest_zero]
  · rw [hbase]
    simp [SettlingPress, hp]

/-- A pressed poll inside the debounce period: nothing changes and the
first-notice branch does not fire. -/
theorem handle_settling_early (v : AutoRepeatButton) (t0 t : Nat)
    (hs : SettlingPress v.base t0) (h0 : t0 ≤ t) (hb : t < ULONG_RANGE)
    (hearly : t ≤ t0 + v.base.debounceDelay) :
    Fire.primaryPress ∉ (v.handle true t).2 ∧ SettlingPress (v.handle true t).1.base t0 := by
  rw [← autoRepeatPart_base v] at hs hearly
  obtain ⟨hw, hp, hsp, hts⟩ := hs
  have hu : usub t v.autoRepeatPart.stateChangedTimeStamp = t - t0 := by
    rw [hts]; exact usub_eq_sub h0 hb
  have hnot : ¬ usub t v.autoRepeatPart.stateChangedTimeStamp >
      v.autoRepeatPart.debounceDelay := by
    rw [hu]; omega
  obtain ⟨hbase, hprim⟩ := handle_base v true t
  rw [heldDown_waiting_early _ true t hw hnot] at hbase hprim
  constructor
  · rw [hprim]
    simp [firstNoticeTest_zero]
  · rw [hbase]
    exact ⟨hw, hp, rfl, hts⟩

/-- The first pressed poll after the debounce period: the first-notice branch
fires and the button is settled pressed. -/
theorem handle_settling_late (v : AutoRepeatButton) (t0 t : Nat)
    (hs : SettlingPress v.base t0) (h0 : t0 ≤ t) (hb : t < ULONG_RANGE)
    (hlate : t0 + v.base.debounceDelay < t) :
    Fire.primaryPress ∈ (v.handle true t).2 ∧ HeldNotified (v.handle true t).1.base t0 := by
  have hdd : v.autoRepeatPart.debounceDelay = v.base.debounceDelay :=
    congrArg PushButton.debounceDelay (autoRepeatPart_base v)
  rw [← autoRepeatPart_base v] at hs
  obtain ⟨hw, hp, hsp, hts⟩ := hs
  have hu : usub t v.autoRepeatPart.stateChangedTimeStamp = t - t0 := by
    rw [hts]; exact usub_eq_sub h0 hb
  have hgt : usub t v.autoRepeatPart.stateChangedTimeStamp >
      v.autoRepeatPart.debounceDelay := by
    rw [hu, hdd]; omega
  have hfn : v.firstNoticeTest (usub t v.autoRepeatPart.stateChangedTimeStamp) = true :=
    firstNoticeTest_of_gt v _ (by rw [← hdd]; exact hgt)
  have hne : usub t v.autoRepeatPart.stateChangedTimeStamp ≠ 0 := by omega
  obtain ⟨hbase, hprim⟩ := handle_base v true t
  rw [heldDown_press_commit _ t hw hp hgt] at hbase hprim
  constructor
  · rw [hprim]
    exact ⟨hsp, hfn⟩
  · rw [hbase]
    refine ⟨rfl, rfl, ?_, hts⟩
    simp [hne, hfn]

/-- A pressed poll of a settled, registered press: the first-notice branch does
not fire again. -/
theorem handle_held (v : AutoRepeatButton) (t0 t : Nat)
    (hs : HeldNotified v.base t0) (h0 : t0 < t) (hb : t < ULONG_RANGE) :
    Fire.primaryPress ∉ (v.handle true t).2 ∧ HeldNotified (v.handle true t).1.base t0 := by
  rw [← autoRepeatPart_base v] at hs
  obtain ⟨hw, hp, hsp, hts⟩ := hs
  have hu : usub t v.autoRepeatPart.stateChangedTimeStamp = t - t0 := by
    rw [hts]; exact usub_eq_sub (Nat.le_of_lt h0) hb
  have hne : usub t v.autoRepeatPart.stateChangedTimeStamp ≠ 0 := by omega
  obtain ⟨hbase, hprim⟩ := handle_base v true t
  rw [heldDown_held _ t hw hp] at hbase hprim
  constructor
  · rw [hprim]
    simp [hsp]
  · rw [hbase]
    refine ⟨hw, hp, ?_, hts⟩
    simp [hne, hsp]

/-- While a registered press stays held, the first-notice branch stays silent. -/
theorem primaryTrace_held (t0 : Nat) (times : List Nat) :
    ∀ v : AutoRepeatButton, HeldNotified v.base t0 →
      (∀ u ∈ times, t0 < u ∧ u < ULONG_RANGE) →
      primaryTrace (runPolls AutoRepeatButton.handle v (times.map (fun u => (true, u)))) =
        List.replicate times.length false := by
  induction times with
  | nil => intro v _ _; rfl
  | cons t rest ih =>
    intro v hs hall
    obtain ⟨ht0, htb⟩ := hall t (List.mem_cons_self t rest)
    obtain ⟨hnp, hs1⟩ := handle_held v t0 t hs ht0 htb
    have hrest := ih (v.handle true t).1 hs1
      (fun u hu => hall u (List.mem_cons_of_mem t hu))
    simp only [List.map_cons, runPolls, primaryTrace, List.length_cons, List.replicate_succ]
    simp only [primaryTrace] at hrest
    rw [hrest]
    simp [hnp]

/-- From the moment a press is spotted at `t0`, the first-notice branch is
silent on the polls up to `t0 + dd`, fires on the first poll later than that,
and is silent afterwards. -/
theorem primaryTrace_settling (t0 dd : Nat) (times : List Nat) :
    ∀ v : AutoRepeatButton, SettlingPress v.base t0 → v.base.debounceDelay = dd →
      (∀ u ∈ times, t0 ≤ u ∧ u < ULONG_RANGE) → times.Pairwise (· ≤ ·) →
      primaryTrace (runPolls AutoRepeatButton.handle v (times.map (fun u => (true, u)))) =
        List.replicate (times.takeWhile (fun u => decide (u ≤ t0 + dd))).length false ++
          (match times.dropWhile (fun u => decide (u ≤ t0 + dd)) with
            | [] => []
            | _ :: later => true :: List.replicate later.length false) := by
  induction times with
  | nil => intro v _ _ _ _; rfl
  | cons t rest ih =>
    intro v hs hdd hall hsorted
    obtain ⟨ht0, htb⟩ := hall t (List.mem_cons_self t rest)
    have hrestall : ∀ u ∈ rest, t0 ≤ u ∧ u < ULONG_RANGE :=
      fun u hu => hall u (List.mem_cons_of_mem t hu)
    rw [List.pairwise_cons] at hsorted
    by_cases hle : t ≤ t0 + dd
    · obtain ⟨hnp, hs1⟩ := handle_settling_early v t0 t hs ht0 htb (by rw [hdd]; exact hle)
      have hrest := ih (v.handle true t).1 hs1
        (by rw [handle_debounceDelay]; exact hdd) hrestall hsorted.2
      simp only [primaryTrace] at hrest
      simp only [List.map_cons, runPolls, primaryTrace, hrest]
      simp [hle, hnp, List.replicate_succ]
    · obtain ⟨hp, hs1⟩ := handle_settling_late v t0 t hs ht0 htb (by rw [hdd]; omega)
      have hrest := primaryTrace_held t0 rest (v.handle true t).1 hs1
        (fun u hu => ⟨by have := hsorted.1 u hu; omega, (hrestall u hu).2⟩)
      simp only [primaryTrace] at hrest
      simp only [List.map_cons, runPolls, primaryTrace, hrest]
      simp [hle, hp]

/-- C3. Primary press exactly once under a continuous hold. For each of the
three classes, from the initialised object, on every sequence of `handle()`
polls at clock values `t0 :: ts` (non-decreasing, no wraparound) that all sample
the button pressed: the first-notice branch is silent on every poll up to
`t0 + debounceDelay`, fires on the first poll later than that, and is silent on
all polls after it. So it fires at most once, and exactly once if some poll is
more than `debounceDelay` ms after the first poll. -/
theorem primary_press_exactly_once (v : AutoRepeatButton) (t0 : Nat) (ts : List Nat)
    (hclock : (t0 :: ts).Pairwise (· ≤ ·)) (hwrap : ∀ t ∈ t0 :: ts, t < ULONG_RANGE) :
    primaryTrace (runPolls AutoRepeatButton.handle v.init
        ((t0 :: ts).map (fun t => (true, t)))) =
      List.replicate
          ((t0 :: ts).takeWhile (fun t => decide (t ≤ t0 + v.base.debounceDelay))).length
          false ++
        (match (t0 :: ts).dropWhile (fun t => decide (t ≤ t0 + v.base.debounceDelay)) with
          | [] => []
          | _ :: later => true :: List.replicate later.length false) ∧
    (primaryTrace (runPolls AutoRepeatButton.handle v.init
        ((t0 :: ts).map (fun t => (true, t))))).count true ≤ 1 ∧
    ((∃ t ∈ ts, t0 + v.base.debounceDelay < t) →
      (primaryTrace (runPolls AutoRepeatButton.handle v.init
        ((t0 :: ts).map (fun t => (true, t))))).count true = 1) := by
  obtain ⟨hnp, hs⟩ := handle_init_pressed v t0
  rw [List.pairwise_cons] at hclock
  have hrest := primaryTrace_settling t0 v.base.debounceDelay ts (v.init.handle true t0).1 hs
    (by rw [handle_debounceDelay, init_debounceDelay])
    (fun u hu => ⟨hclock.1 u hu, hwrap u (List.mem_cons_of_mem t0 hu)⟩) hclock.2
  have hshape : primaryTrace (runPolls AutoRepeatButton.handle v.init
        ((t0 :: ts).map (fun t => (true, t)))) =
      List.replicate
          ((t0 :: ts).takeWhile (fun t => decide (t ≤ t0 + v.base.debounceDelay))).length
          false ++
        (match (t0 :: ts).dropWhile (fun t => decide (t ≤ t0 + v.base.debounceDelay)) with
          | [] => []
          | _ :: later => true :: List.replicate later.length false) := by
    simp only [primaryTrace] at hrest
    simp only [List.map_cons, runPolls, primaryTrace, hrest]
    simp [hnp, List.replicate_succ]
  refine ⟨hshape, ?_, ?_⟩
  · rw [hshape]
    cases (t0 :: ts).dropWhile (fun t => decide (t ≤ t0 + v.base.debounceDelay)) with
    | nil => simp [List.count_replicate]
    | cons a later => simp [List.count_replicate, List.count_cons]
  · rintro ⟨t, ht, hlate⟩
    rw [hshape]
    have hne : (t0 :: ts).dropWhile (fun t => decide (t ≤ t0 + v.base.debounceDelay)) ≠ [] := by
      intro hnil
      rw [List.dropWhile_eq_nil_iff] at hnil
      have := hnil t (List.mem_cons_of_mem t0 ht)
      simp at this
      omega
    cases hd : (t0 :: ts).dropWhile (fun t => decide (t ≤ t0 + v.base.debounceDelay)) with
    | nil => exact absurd hd hne
    | cons a later => simp [List.count_replicate, List.count_cons]

/-! ### Sequences of polls -/

theorem runPolls_append {σ ρ : Type} (step : σ → Bool → Nat → σ × ρ) (ps qs : List (Bool × Nat)) :
    ∀ s : σ, runPolls step s (ps ++ qs) =
      runPolls step s ps ++ runPolls step (finalState step s ps) qs := by
  induction ps with
  | nil => intro s; rfl
  | cons p ps ih => intro s; simp [runPolls, finalState, ih]

theorem finalState_append {σ ρ : Type} (step : σ → Bool → Nat → σ × ρ)
    (ps qs : List (Bool × Nat)) :
    ∀ s : σ, finalState step s (ps ++ qs) = finalState step (finalState step s ps) qs := by
  induction ps with
  | nil => intro s; rfl
  | cons p ps ih => intro s; simp [finalState, ih]

theorem callbackLog_append {σ : Type} (step : σ → Bool → Nat → σ × List Fire)
    (ps qs : List (Bool × Nat)) :
    ∀ s : σ, callbackLog step s (ps ++ qs) =
      callbackLog step s ps ++ callbackLog step (finalState step s ps) qs := by
  induction ps with
  | nil => intro s; rfl
  | cons p ps ih => intro s; simp [callbackLog, finalState, ih]

theorem callbackLog_cons {σ : Type} (step : σ → Bool → Nat → σ × List Fire) (s s1 : σ)
    (raw : Bool) (t : Nat) (fires : List Fire) (ps : List (Bool × Nat))
    (h : step s raw t = (s1, fires)) :
    callbackLog step s ((raw, t) :: ps) =
      fires.map (fun f => (t, f)) ++ callbackLog step s1 ps := by
  simp only [callbackLog, h]

theorem finalState_cons {σ ρ : Type} (step : σ → Bool → Nat → σ × ρ) (s s1 : σ)
    (raw : Bool) (t : Nat) (r : ρ) (ps : List (Bool × Nat))
    (h : step s raw t = (s1, r)) :
    finalState step s ((raw, t) :: ps) = finalState step s1 ps := by
  simp only [finalState, h]

/-! ### The held duration -/

/-- Polls inside the debounce period leave the object as it is and return 0. -/
theorem heldDown_run_waiting (b : PushButtonAutoRepeat) (mid : List (Bool × Nat))
    (hw : b.debounceWaiting = true)
    (hmid : ∀ p ∈ mid, ¬ usub p.2 b.stateChangedTimeStamp > b.debounceDelay) :
    runPolls PushButtonAutoRepeat.heldDown b mid = mid.map (fun _ => (b, 0)) ∧
      finalState PushButtonAutoRepeat.heldDown b mid = b := by
  induction mid with
  | nil => exact ⟨rfl, rfl⟩
  | cons p ps ih =>
    have hp := heldDown_waiting_early b p.1 p.2 hw (hmid p (List.mem_cons_self p ps))
    obtain ⟨h1, h2⟩ := ih (fun q hq => hmid q (List.mem_cons_of_mem p hq))
    constructor
    · simp only [runPolls, List.map_cons, hp, h1]
    · simp only [finalState, hp, h2]

/-- While the button stays settled pressed, every poll returns the unsigned
difference between the clock and the unchanged time stamp. -/
theorem heldDown_run_settled (after : List (Bool × Nat)) :
    ∀ b : PushButtonAutoRepeat, b.debounceWaiting = false → b.previousButtonState = true →
      (∀ r ∈ runPolls PushButtonAutoRepeat.heldDown b after,
        r.1.previousButtonState = true ∧ r.1.debounceWaiting = false) →
      (runPolls PushButtonAutoRepeat.heldDown b after).map Prod.snd =
        after.map (fun p => usub p.2 b.stateChangedTimeStamp) := by
  induction after with
  | nil => intro b _ _ _; rfl
  | cons p ps ih =>
    intro b hw hp hstay
    obtain ⟨raw, t⟩ := p
    cases raw with
    | false =>
      have h := hstay (b.heldDown false t) (by simp [runPolls])
      simp [PushButtonAutoRepeat.heldDown, hw, hp] at h
    | true =>
      have hh := heldDown_held b t hw hp
      have hrest := ih b hw hp (fun r hr => hstay r (by
        simp only [runPolls, hh, List.mem_cons]
        exact Or.inr hr))
      simp only [runPolls, List.map_cons, hh, hrest]

/-- C9 (as amended). The held duration is measured from the moment the press
was first observed, not from the moment it became settled. From a settled
released button, let the raw press be spotted first on a poll at clock value
`t0`, let the polls `mid` fall inside the debounce period, let the press be
committed as settled on a pressed poll at clock value `s` (the debounce period
is found elapsed), and let the button stay settled pressed on the polls `after`.
Then the commit poll returns the unsigned difference `s - t0` and every
later poll at clock value `nowMs` returns the unsigned difference `nowMs - t0`;
the polls before the commit return 0. -/
theorem heldDown_measures_from_first_observation (a : PushButtonAutoRepeat) (t0 s : Nat)
    (mid after : List (Bool × Nat))
    (hidle : a.debounceWaiting = false ∧ a.previousButtonState = false)
    (hmid : ∀ p ∈ mid, ¬ usub p.2 t0 > a.debounceDelay)
    (hcommit : usub s t0 > a.debounceDelay)
    (hstay : ∀ r ∈ runPolls PushButtonAutoRepeat.heldDown
        (finalState PushButtonAutoRepeat.heldDown a ((true, t0) :: mid ++ [(true, s)])) after,
      r.1.previousButtonState = true ∧ r.1.debounceWaiting = false) :
    ((finalState PushButtonAutoRepeat.heldDown a
        ((true, t0) :: mid ++ [(true, s)])).previousButtonState = true ∧
      (finalState PushButtonAutoRepeat.heldDown a
        ((true, t0) :: mid ++ [(true, s)])).debounceWaiting = false) ∧
    (runPolls PushButtonAutoRepeat.heldDown a
        ((true, t0) :: mid ++ (true, s) :: after)).map Prod.snd =
      0 :: List.replicate mid.length 0 ++ usub s t0 :: after.map (fun p => usub p.2 t0) := by
  obtain ⟨hw, hp⟩ := hidle
  have h0 := heldDown_press_spotted a t0 hw hp
  generalize hb : ({ a with debounceWaiting := true, stateChangedTimeStamp := t0 } :
    PushButtonAutoRepeat) = b at h0
  have hbw : b.debounceWaiting = true := by rw [← hb]
  have hbp : b.previousButtonState = false := by rw [← hb]; exact hp
  have hbts : b.stateChangedTimeStamp = t0 := by rw [← hb]
  have hbdd : b.debounceDelay = a.debounceDelay := by rw [← hb]
  obtain ⟨hm1, hm2⟩ := heldDown_run_waiting b mid hbw (by rw [hbts, hbdd]; exact hmid)
  have hc := heldDown_press_commit b s hbw hbp (by rw [hbts, hbdd]; exact hcommit)
  generalize hcdef : ({ b with debounceWaiting := false, previousButtonState := true } :
    PushButtonAutoRepeat) = c at hc
  have hcw : c.debounceWaiting = false := by rw [← hcdef]
  have hcp : c.previousButtonState = true := by rw [← hcdef]
  have hcts : c.stateChangedTimeStamp = t0 := by rw [← hcdef]; exact hbts
  have hfin : finalState PushButtonAutoRepeat.heldDown a ((true, t0) :: mid ++ [(true, s)]) =
      c := by
    rw [List.cons_append]
    simp only [finalState, h0]
    rw [finalState_append, hm2]
    simp only [finalState, hc]
  rw [hfin] at hstay ⊢
  refine ⟨⟨hcp, hcw⟩, ?_⟩
  have hafter := heldDown_run_settled after c hcw hcp hstay
  rw [hcts] at hafter
  rw [List.cons_append]
  simp only [runPolls, h0, List.map_cons]
  rw [runPolls_append, hm1, hm2]
  simp only [runPolls, hc, List.map_append, List.map_cons, List.map_map, hafter, hbts]
  simp [List.replicate]
  exact List.map_const' _ _

/-- C9 (as stated, refuted). It is not the case that, after a press has been
committed as settled on a poll at clock value `s`, the polls of the settled
press return the unsigned difference `nowMs - s`: with a debounce delay of
50 ms, a press spotted at `t0 = 0` and committed at `s = 60`, the poll at
`nowMs = 70` returns 70, not 10. -/
theorem heldDown_not_measured_from_commit :
    ¬ ∀ (a : PushButtonAutoRepeat) (t0 s : Nat) (mid after : List (Bool × Nat)),
      (a.debounceWaiting = false ∧ a.previousButtonState = false) →
      (∀ p ∈ mid, ¬ usub p.2 t0 > a.debounceDelay) →
      usub s t0 > a.debounceDelay →
      (∀ r ∈ runPolls PushButtonAutoRepeat.heldDown
          (finalState PushButtonAutoRepeat.heldDown a ((true, t0) :: mid ++ [(true, s)])) after,
        r.1.previousButtonState = true ∧ r.1.debounceWaiting = false) →
      (runPolls PushButtonAutoRepeat.heldDown
          (finalState PushButtonAutoRepeat.heldDown a ((true, t0) :: mid ++ [(true, s)]))
          after).map Prod.snd = after.map (fun p => usub p.2 s) := by
  intro h
  have h1 := h (PushButtonAutoRepeat.new 2 (some 0) 500 200 50 (0, 0)) 0 60 [] [(true, 70)]
    (by decide) (by decide) (by decide) (by decide)
  revert h1
  decide

/-! ### Held-duration monotonicity -/

/-- A pressed poll of `heldDown` that returns a nonzero value leaves the button
settled pressed, with the time stamp it had, and returns the unsigned
difference between the clock and that time stamp. -/
theorem heldDown_pressed_nonzero (b : PushButtonAutoRepeat) (t : Nat)
    (hnz : (b.heldDown true t).2 ≠ 0) :
    (b.heldDown true t).1.previousButtonState = true ∧
      (b.heldDown true t).1.debounceWaiting = false ∧
      (b.heldDown true t).1.stateChangedTimeStamp = b.stateChangedTimeStamp ∧
      (b.heldDown true t).2 = usub t b.stateChangedTimeStamp := by
  revert hnz
  unfold PushButtonAutoRepeat.heldDown
  split_ifs <;> simp_all


theorem heldDown_timestampNotAfter (b : PushButtonAutoRepeat) (raw : Bool) (t hi : Nat)
    (hinv : TimestampNotAfter b.toPushButton hi) (ht : t ≤ hi) :
    TimestampNotAfter (b.heldDown raw t).1.toPushButton hi := by
  unfold TimestampNotAfter at *
  unfold PushButtonAutoRepeat.heldDown
  split_ifs <;> simp_all

theorem finalState_timestampNotAfter (hi : Nat) (pre : List (Bool × Nat)) :
    ∀ b : PushButtonAutoRepeat, TimestampNotAfter b.toPushButton hi →
      (∀ p ∈ pre, p.2 ≤ hi) →
      TimestampNotAfter (finalState PushButtonAutoRepeat.heldDown b pre).toPushButton hi := by
  induction pre with
  | nil => intro b hb _; exact hb
  | cons p ps ih =>
    intro b hb hpre
    exact ih _ (heldDown_timestampNotAfter b p.1 p.2 hi hb (hpre p (List.mem_cons_self p ps)))
      (fun q hq => hpre q (List.mem_cons_of_mem p hq))

/-- Two successive pressed polls of a button whose time stamp is not later than
the first of them: if the first returns a nonzero duration, the second returns
that duration plus the time between the polls. -/
theorem heldDown_successive (b : PushButtonAutoRepeat) (t1 t2 : Nat)
    (hts : TimestampNotAfter b.toPushButton t1) (h12 : t1 ≤ t2) (hwrap : t2 < ULONG_RANGE)
    (hnz : (b.heldDown true t1).2 ≠ 0) :
    (b.heldDown true t1).2 ≤ ((b.heldDown true t1).1.heldDown true t2).2 ∧
      ((b.heldDown true t1).1.heldDown true t2).2 - (b.heldDown true t1).2 = t2 - t1 := by
  have hsettled := (heldDown_pressed_nonzero b t1 hnz)
  obtain ⟨hp1, hw1, hts1, hret1⟩ := hsettled
  have hle : b.stateChangedTimeStamp ≤ t1 := by
    apply hts
    revert hnz
    unfold PushButtonAutoRepeat.heldDown
    split_ifs <;> simp_all
  rw [heldDown_held _ t2 hw1 hp1, hret1, hts1]
  simp only
  rw [usub_eq_sub hle (by omega), usub_eq_sub (by omega) hwrap]
  omega

/-- C10. Held-duration monotonicity. From the initialised object, after any
polls `pre` whose clock values are not later than `t1`, take two successive
polls at clock values `t1 ≤ t2` (no wraparound: `t2 < 2 ^ 32`) that both sample
the button pressed. If the first returns a nonzero held duration `h1`, the
second returns `h2` with `h2 ≥ h1` and `h2 - h1 = t2 - t1`. -/
theorem heldDown_monotone (b0 : PushButtonAutoRepeat) (pre : List (Bool × Nat)) (t1 t2 : Nat)
    (hpre : ∀ p ∈ pre, p.2 ≤ t1) (h12 : t1 ≤ t2) (hwrap : t2 < ULONG_RANGE)
    (hnz : ((finalState PushButtonAutoRepeat.heldDown b0.init pre).heldDown true t1).2 ≠ 0) :
    ((finalState PushButtonAutoRepeat.heldDown b0.init pre).heldDown true t1).2 ≤
      (((finalState PushButtonAutoRepeat.heldDown b0.init pre).heldDown true t1).1.heldDown
        true t2).2 ∧
    (((finalState PushButtonAutoRepeat.heldDown b0.init pre).heldDown true t1).1.heldDown
        true t2).2 -
      ((finalState PushButtonAutoRepeat.heldDown b0.init pre).heldDown true t1).2 = t2 - t1 :=
  heldDown_successive _ t1 t2
    (finalState_timestampNotAfter t1 pre b0.init
      (by intro h; simp [PushButtonAutoRepeat.init, PushButton.init] at h) hpre)
    h12 hwrap hnz

/-! ### A released glitch while the button is held -/

/-- C4 (the code at the failing input). With a debounce delay of 50 ms, polls
`glitchPolls`: the press settles on the poll at `t = 60` and the first-notice
branch fires; the single released sample at `t = 70` is cancelled by the
debounce logic, so `previousButtonState` stays true from the poll at `t = 60`
on; all the same the first-notice branch fires a second time on the poll at
`t = 140`. On the same polls `stateChanged()` reports one `BUTTON_PRESSED`
and no `BUTTON_RELEASED`. -/
theorem first_notice_twice_without_release :
    (runPolls PushButtonAutoRepeat.handle
        (PushButtonAutoRepeat.new 2 (some 0) 500 200 50 (0, 0)).init glitchPolls).map
        (fun r => (r.1.previousButtonState, r.2)) =
      [(false, []), (true, [Fire.primaryPress]), (true, []), (true, []),
        (true, [Fire.primaryPress])] ∧
    (runPolls PushButton.stateChanged
        (PushButtonAutoRepeat.new 2 (some 0) 500 200 50 (0, 0)).init.toPushButton
        glitchPolls).map Prod.snd =
      [BUTTON_NOCHANGE, BUTTON_PRESSED, BUTTON_NOCHANGE, BUTTON_NOCHANGE, BUTTON_NOCHANGE] := by
  decide

/-! ### The fixed-rate scenario -/

theorem everyTenMs_add (raw : Nat → Bool) (n m : Nat) :
    ∀ k, everyTenMs raw k (n + m) = everyTenMs raw k n ++ everyTenMs raw (k + n) m := by
  induction n with
  | zero => intro k; simp [everyTenMs]
  | succ n ih =>
    intro k
    rw [Nat.add_right_comm n 1 m]
    simp only [everyTenMs, ih, List.cons_append]
    rw [Nat.add_assoc k 1 n, Nat.add_comm 1 n]

/-- The members `pin` and `keyPressCallback` have no influence on `heldDown`. -/
theorem heldDown_frame (b : PushButtonAutoRepeat) (pbPin : Nat) (cb : Option Nat)
    (raw : Bool) (t : Nat) :
    PushButtonAutoRepeat.heldDown { b with pin := pbPin, keyPressCallback := cb } raw t =
      ({ (b.heldDown raw t).1 with pin := pbPin, keyPressCallback := cb },
        (b.heldDown raw t).2) := by
  unfold PushButtonAutoRepeat.heldDown
  split_ifs <;> rfl

/-- The members `pin` and `keyPressCallback` have no influence on what follows
the call of `heldDown` in `handle`. -/
theorem handleHeld_frame (b : PushButtonAutoRepeat) (pbPin : Nat) (cb : Option Nat)
    (d t : Nat) :
    PushButtonAutoRepeat.handleHeld { b with pin := pbPin, keyPressCallback := cb } d t =
      ({ (b.handleHeld d t).1 with pin := pbPin, keyPressCallback := cb },
        (b.handleHeld d t).2) := by
  unfold PushButtonAutoRepeat.handleHeld
  simp only
  split_ifs <;> rfl

theorem handle_frame (b : PushButtonAutoRepeat) (pbPin : Nat) (cb : Option Nat)
    (raw : Bool) (t : Nat) :
    PushButtonAutoRepeat.handle { b with pin := pbPin, keyPressCallback := cb } raw t =
      ({ (b.handle raw t).1 with pin := pbPin, keyPressCallback := cb },
        (b.handle raw t).2) := by
  unfold PushButtonAutoRepeat.handle
  rw [heldDown_frame]
  exact handleHeld_frame _ _ _ _ _

theorem callbackLog_frame (pbPin : Nat) (cb : Option Nat) (polls : List (Bool × Nat)) :
    ∀ b : PushButtonAutoRepeat,
      callbackLog PushButtonAutoRepeat.handle { b with pin := pbPin, keyPressCallback := cb }
        polls = callbackLog PushButtonAutoRepeat.handle b polls := by
  induction polls with
  | nil => intro b; rfl
  | cons p ps ih =>
    intro b
    simp only [callbackLog, handle_frame]
    rw [ih]

/-- A settled released button that has no key press registered stays as it is,
and invokes no callback, on every released poll. -/
theorem handle_idle_released (b : PushButtonAutoRepeat) (t : Nat)
    (hw : b.debounceWaiting = false) (hp : b.previousButtonState = false)
    (hsp : b.singlePress = false) :
    b.handle false t = (b, []) := by
  obtain ⟨⟨pin, dd, ts, w, prev, sp⟩, rd, rp, cb, lc⟩ := b
  simp only at hw hp hsp
  subst hw hp hsp
  simp [PushButtonAutoRepeat.handle, PushButtonAutoRepeat.heldDown,
    PushButtonAutoRepeat.handleHeld]

theorem callbackLog_idle_released (b : PushButtonAutoRepeat)
    (hw : b.debounceWaiting = false) (hp : b.previousButtonState = false)
    (hsp : b.singlePress = false) (polls : List (Bool × Nat))
    (hreleased : ∀ p ∈ polls, p.1 = false) :
    callbackLog PushButtonAutoRepeat.handle b polls = [] := by
  induction polls with
  | nil => rfl
  | cons p ps ih =>
    obtain ⟨raw, t⟩ := p
    have hraw : raw = false := hreleased (raw, t) (List.mem_cons_self _ _)
    subst hraw
    simp only [callbackLog, handle_idle_released b t hw hp hsp, List.map_nil, List.nil_append]
    exact ih (fun q hq => hreleased q (List.mem_cons_of_mem _ hq))

theorem everyTenMs_released (n : Nat) :
    ∀ k, 100 ≤ k → ∀ p ∈ everyTenMs pressedUntil1000 k n, p.1 = false := by
  induction n with
  | zero => intro k _ p hp; simp [everyTenMs] at hp
  | succ n ih =>
    intro k hk p hp
    simp only [everyTenMs, List.mem_cons] at hp
    rcases hp with rfl | hp
    · simp [pressedUntil1000]; omega
    · exact ih (k + 1) (by omega) p hp

/-- A poll inside the debounce period, with no key press registered, changes
nothing and invokes no callback. -/
theorem handle_waiting_early (b : PushButtonAutoRepeat) (raw : Bool) (t : Nat)
    (hw : b.debounceWaiting = true) (hsp : b.singlePress = false)
    (hearly : ¬ usub t b.stateChangedTimeStamp > b.debounceDelay) :
    b.handle raw t = (b, []) := by
  unfold PushButtonAutoRepeat.handle
  rw [heldDown_waiting_early b raw t hw hearly]
  obtain ⟨⟨pin, dd, ts, w, prev, sp⟩, rd, rp, cb, lc⟩ := b
  simp only at hsp
  subst hsp
  simp [PushButtonAutoRepeat.handleHeld]

/-- The poll that spots a press of a settled released button with no key press
registered: the button starts to wait, no callback is invoked. -/
theorem handle_press_spotted (b : PushButtonAutoRepeat) (t : Nat)
    (hw : b.debounceWaiting = false) (hp : b.previousButtonState = false)
    (hsp : b.singlePress = false) :
    b.handle true t =
      ({ b with debounceWaiting := true, stateChangedTimeStamp := t }, []) := by
  unfold PushButtonAutoRepeat.handle
  rw [heldDown_press_spotted b t hw hp]
  obtain ⟨⟨pin, dd, ts, w, prev, sp⟩, rd, rp, cb, lc⟩ := b
  simp only at hsp
  subst hsp
  simp [PushButtonAutoRepeat.handleHeld]

/-- The poll that commits a press before the repeat delay has passed: the first
notice fires and nothing else. -/
theorem handle_first_notice (b : PushButtonAutoRepeat) (t : Nat)
    (hw : b.debounceWaiting = true) (hp : b.previousButtonState = false)
    (hsp : b.singlePress = false)
    (hlate : usub t b.stateChangedTimeStamp > b.debounceDelay)
    (hrd : ¬ usub t b.stateChangedTimeStamp > b.repeatDelay) :
    b.handle true t =
      ({ b with debounceWaiting := false, previousButtonState := true, singlePress := true,
                lastChangeTime := t }, [Fire.primaryPress]) := by
  unfold PushButtonAutoRepeat.handle
  rw [heldDown_press_commit b t hw hp hlate]
  have hne : usub t b.stateChangedTimeStamp ≠ 0 := by omega
  obtain ⟨⟨pin, dd, ts, w, prev, sp⟩, rd, rp, cb, lc⟩ := b
  simp only at hsp hne hrd
  subst hsp
  simp [PushButtonAutoRepeat.handleHeld, hne, hrd]

/-- The scenario up to the poll at `t = 60`, whatever the pin, the callback and
the values of the members that are not initialised. -/
theorem scenario_first_seven (b : PushButtonAutoRepeat) (hdd : b.debounceDelay = 50)
    (hrd : b.repeatDelay = 500) (hrp : b.repeatPeriod = 200) :
    callbackLog PushButtonAutoRepeat.handle b.init (everyTenMs pressedUntil1000 0 7) =
      [(60, Fire.primaryPress)] ∧
    finalState PushButtonAutoRepeat.handle b.init (everyTenMs pressedUntil1000 0 7) =
      { scenarioAfter60 with pin := b.pin, keyPressCallback := b.keyPressCallback } := by
  have hpolls : everyTenMs pressedUntil1000 0 7 =
      [(true, 0), (true, 10), (true, 20), (true, 30), (true, 40), (true, 50), (true, 60)] := by
    decide
  have e0 := handle_press_spotted b.init 0 rfl rfl rfl
  obtain ⟨s1, hs1⟩ : ∃ s1 : PushButtonAutoRepeat,
      s1 = { b.init with debounceWaiting := true, stateChangedTimeStamp := 0 } := ⟨_, rfl⟩
  rw [← hs1] at e0
  have hw1 : s1.debounceWaiting = true := by rw [hs1]
  have hp1 : s1.previousButtonState = false := by rw [hs1]; rfl
  have hsp1 : s1.singlePress = false := by rw [hs1]; rfl
  have hts1 : s1.stateChangedTimeStamp = 0 := by rw [hs1]
  have hdd1 : s1.debounceDelay = 50 := by rw [hs1]; exact hdd
  have hrd1 : s1.repeatDelay = 500 := by rw [hs1]; exact hrd
  have hu : ∀ t, t ≤ 60 → usub t s1.stateChangedTimeStamp = t := by
    intro t ht
    rw [hts1, usub_eq_sub (Nat.zero_le t) (by unfold ULONG_RANGE; omega)]
    rfl
  have early : ∀ t, t ≤ 50 → PushButtonAutoRepeat.handle s1 true t = (s1, []) := by
    intro t ht
    apply handle_waiting_early s1 true t hw1 hsp1
    rw [hu t (by omega), hdd1]
    omega
  have e6 := handle_first_notice s1 60 hw1 hp1 hsp1
    (by rw [hu 60 (by omega), hdd1]; omega) (by rw [hu 60 (by omega), hrd1]; omega)
  rw [hpolls]
  constructor
  · rw [callbackLog_cons _ _ _ _ _ _ _ e0, callbackLog_cons _ _ _ _ _ _ _ (early 10 (by omega)),
      callbackLog_cons _ _ _ _ _ _ _ (early 20 (by omega)),
      callbackLog_cons _ _ _ _ _ _ _ (early 30 (by omega)),
      callbackLog_cons _ _ _ _ _ _ _ (early 40 (by omega)),
      callbackLog_cons _ _ _ _ _ _ _ (early 50 (by omega)),
      callbackLog_cons _ _ _ _ _ _ _ e6]
    rfl
  rw [finalState_cons _ _ _ _ _ _ _ e0, finalState_cons _ _ _ _ _ _ _ (early 10 (by omega)),
    finalState_cons _ _ _ _ _ _ _ (early 20 (by omega)),
    finalState_cons _ _ _ _ _ _ _ (early 30 (by omega)),
    finalState_cons _ _ _ _ _ _ _ (early 40 (by omega)),
    finalState_cons _ _ _ _ _ _ _ (early 50 (by omega)),
    finalState_cons _ _ _ _ _ _ _ e6]
  show _ = _
  simp only [finalState]
  rw [hs1]
  obtain ⟨⟨pin, dd, ts, w, prev, sp⟩, rd, rp, cb, lc⟩ := b
  simp only at hdd hrd hrp
  subst hdd hrd hrp
  rfl

set_option maxRecDepth 100000 in
/-- The scenario from the poll at `t = 70` to the poll at `t = 1060`. -/
theorem scenario_next_hundred :
    callbackLog PushButtonAutoRepeat.handle scenarioAfter60 (everyTenMs pressedUntil1000 7 100) =
      [(510, Fire.autoRepeat), (720, Fire.autoRepeat), (930, Fire.autoRepeat)] ∧
    (finalState PushButtonAutoRepeat.handle scenarioAfter60
      (everyTenMs pressedUntil1000 7 100)).debounceWaiting = false ∧
    (finalState PushButtonAutoRepeat.handle scenarioAfter60
      (everyTenMs pressedUntil1000 7 100)).previousButtonState = false ∧
    (finalState PushButtonAutoRepeat.handle scenarioAfter60
      (everyTenMs pressedUntil1000 7 100)).singlePress = false := by
  decide

/-- C6 (as amended). Fixed-rate scenario: debounce 50 ms, initial delay
500 ms, period 200 ms; from the initialised object, `handle` is polled every
10 ms from `t = 0` for at least 107 polls (up to `t = 1060` or longer), the raw
input being pressed on every poll with `t < 1000` and released on every poll
with `t ≥ 1000`. The callback is invoked at `t = 60` (first notice), then at
`t = 510`, `t = 720` and `t = 930` (repeats), and at no other time. -/
theorem fixed_scenario_callbacks (b : PushButtonAutoRepeat) (n : Nat)
    (hdd : b.debounceDelay = 50) (hrd : b.repeatDelay = 500) (hrp : b.repeatPeriod = 200) :
    callbackLog PushButtonAutoRepeat.handle b.init
        (everyTenMs pressedUntil1000 0 (107 + n)) =
      [(60, Fire.primaryPress), (510, Fire.autoRepeat), (720, Fire.autoRepeat),
        (930, Fire.autoRepeat)] := by
  obtain ⟨h7, hs7⟩ := scenario_first_seven b hdd hrd hrp
  obtain ⟨h100, hw, hp, hsp⟩ := scenario_next_hundred
  have htail := callbackLog_idle_released _ hw hp hsp (everyTenMs pressedUntil1000 107 n)
    (everyTenMs_released n 107 (by omega))
  have hsplit : 107 + n = 7 + (100 + n) := by omega
  rw [hsplit, everyTenMs_add, callbackLog_append, h7, hs7, callbackLog_frame,
    everyTenMs_add, callbackLog_append, h100]
  simp only [Nat.zero_add] at htail ⊢
  rw [htail]
  rfl

set_option maxRecDepth 100000 in
/-- C6 (as stated, refuted). In the fixed-rate scenario polled for 200 polls
(up to `t = 1990`) the callback invocations are not those at `t = 60`, `560`,
`760` and `960`: the first repeat is at `t = 510`, which lies between 60 and
560, and no callback is invoked at `t = 560`. -/
theorem fixed_scenario_not_as_stated :
    callbackLog PushButtonAutoRepeat.handle
        (PushButtonAutoRepeat.new 2 (some 0) 500 200 50 (0, 0)).init
        (everyTenMs pressedUntil1000 0 200) ≠
      [(60, Fire.primaryPress), (560, Fire.autoRepeat), (760, Fire.autoRepeat),
        (960, Fire.autoRepeat)] ∧
    (510, Fire.autoRepeat) ∈ callbackLog PushButtonAutoRepeat.handle
        (PushButtonAutoRepeat.new 2 (some 0) 500 200 50 (0, 0)).init
        (everyTenMs pressedUntil1000 0 200) ∧
    (560, Fire.autoRepeat) ∉ callbackLog PushButtonAutoRepeat.handle
        (PushButtonAutoRepeat.new 2 (some 0) 500 200 50 (0, 0)).init
        (everyTenMs pressedUntil1000 0 200) := by
  decide

/-! ### Instances at concrete inputs -/

/-- C1 at a concrete input: a freshly constructed button polled pressed at `t = 10`
is not waiting, and the poll returns `BUTTON_NOCHANGE`. -/
theorem stateChanged_reports_only_settled_change_witness :
    ¬ ((PushButtonAutoRepeat.new 2 none 500 200 50 (0, 0)).toPushButton.debounceWaiting = true ∧
        usub 10 (PushButtonAutoRepeat.new 2 none 500 200 50 (0, 0)).stateChangedTimeStamp >
          (PushButtonAutoRepeat.new 2 none 500 200 50 (0, 0)).debounceDelay ∧
        true ≠ (PushButtonAutoRepeat.new 2 none 500 200 50 (0, 0)).previousButtonState) ∧
    ((PushButtonAutoRepeat.new 2 none 500 200 50 (0, 0)).toPushButton.stateChanged true 10).2 =
      BUTTON_NOCHANGE :=
  ⟨by decide,
    (stateChanged_reports_only_settled_change
      (PushButtonAutoRepeat.new 2 none 500 200 50 (0, 0)).toPushButton true 10).2 (by decide)⟩

/-- C2 at a concrete input: for a released button sampled pressed, line 133
yields `BUTTON_PRESSED`. -/
theorem stateChanged_code_iff_stable_change_witness :
    Bool.xor false true = true ∧
    ((edgeCode false true = BUTTON_PRESSED ∧ false = false ∧ true = true) ∨
      (edgeCode false true = BUTTON_RELEASED ∧ false = true ∧ true = false)) :=
  ⟨by decide,
    (stateChanged_code_iff_stable_change
      (PushButtonAutoRepeat.new 2 none 500 200 50 (0, 0)).toPushButton true 10).2.2.2.2
      false true (by decide)⟩

/-- C3 at a concrete input: a two-speed button with a debounce delay of 50 ms,
held and polled at `t = 0, 10, 60, 70`, gives its first notice on the third
poll only. -/
theorem primary_press_exactly_once_witness :
    [0, 10, 60, 70].Pairwise (· ≤ ·) ∧ (∀ t ∈ [0, 10, 60, 70], t < ULONG_RANGE) ∧
    primaryTrace (runPolls AutoRepeatButton.handle
        (AutoRepeatButton.twoSpeed
          (PushButton2SpeedAutoRepeat.new 2 none 500 200 2000 50 50 (0, 0))).init
        ([0, 10, 60, 70].map (fun t => (true, t)))) = [false, false, true, false] :=
  ⟨by decide, by decide,
    (primary_press_exactly_once
      (AutoRepeatButton.twoSpeed (PushButton2SpeedAutoRepeat.new 2 none 500 200 2000 50 50 (0, 0)))
      0 [10, 60, 70] (by decide) (by decide)).1.trans (by decide)⟩

/-- C5 at a concrete input: the scenario object after `t = 60`, polled pressed
at `t = 510`, fires one repeat and records `lastChangeTime = 510`. -/
theorem fixed_repeat_condition_witness :
    Fire.primaryPress ∉ (scenarioAfter60.handle true 510).2 ∧
    (scenarioAfter60.handle true 510).2 = [Fire.autoRepeat] ∧
    (scenarioAfter60.handle true 510).1.lastChangeTime = 510 :=
  ⟨by decide,
    (fixed_repeat_condition scenarioAfter60 true 510 (by decide)).1.2 (by decide),
    (fixed_repeat_condition scenarioAfter60 true 510 (by decide)).2.2.1 (by decide)⟩

/-- C8 at a concrete input: the scenario object after `t = 60`, polled pressed
at `t = 70`, returns a nonzero duration and is settled pressed. -/
theorem heldDown_nonzero_settled_pressed_witness :
    (scenarioAfter60.heldDown true 70).2 ≠ 0 ∧
    (scenarioAfter60.heldDown true 70).1.previousButtonState = true ∧
    (scenarioAfter60.heldDown true 70).1.debounceWaiting = false :=
  ⟨by decide, (heldDown_nonzero_settled_pressed scenarioAfter60 true 70).1 (by decide)⟩

/-- C9 (as amended) at a concrete input: a press spotted at `t0 = 100`, two
polls inside the 50 ms debounce period, the commit at `s = 160` and two later
polls return 0, 0, 0, 60, 70, 80. -/
theorem heldDown_measures_from_first_observation_witness :
    (runPolls PushButtonAutoRepeat.heldDown (PushButtonAutoRepeat.new 2 none 500 200 50 (0, 0))
        ((true, 100) :: [(true, 110), (false, 120)] ++ (true, 160) :: [(true, 170), (true, 180)])).map
        Prod.snd =
      [0, 0, 0, 60, 70, 80] :=
  (heldDown_measures_from_first_observation (PushButtonAutoRepeat.new 2 none 500 200 50 (0, 0))
    100 160 [(true, 110), (false, 120)] [(true, 170), (true, 180)]
    (by decide) (by decide) (by decide) (by decide)).2.trans (by decide)

/-- C10 at a concrete input: after a press spotted at `t = 0`, the pressed polls
at `t1 = 60` and `t2 = 75` return durations that differ by `75 - 60`. -/
theorem heldDown_monotone_witness :
    ((finalState PushButtonAutoRepeat.heldDown
        (PushButtonAutoRepeat.new 2 none 500 200 50 (0, 0)).init [(true, 0)]).heldDown
        true 60).2 ≠ 0 ∧
    (((finalState PushButtonAutoRepeat.heldDown
        (PushButtonAutoRepeat.new 2 none 500 200 50 (0, 0)).init [(true, 0)]).heldDown
        true 60).1.heldDown true 75).2 -
      ((finalState PushButtonAutoRepeat.heldDown
        (PushButtonAutoRepeat.new 2 none 500 200 50 (0, 0)).init [(true, 0)]).heldDown
        true 60).2 = 75 - 60 :=
  ⟨by decide,
    (heldDown_monotone (PushButtonAutoRepeat.new 2 none 500 200 50 (0, 0)) [(true, 0)] 60 75
      (by decide) (by decide) (by decide) (by decide)).2⟩

/-- C6 (as amended) at a concrete input: 200 polls (up to `t = 1990`), with
arbitrary values 7 and 9 in the members that are not initialised. -/
theorem fixed_scenario_callbacks_witness :
    callbackLog PushButtonAutoRepeat.handle
        (PushButtonAutoRepeat.new 2 (some 0) 500 200 50 (7, 9)).init
        (everyTenMs pressedUntil1000 0 (107 + 93)) =
      [(60, Fire.primaryPress), (510, Fire.autoRepeat), (720, Fire.autoRepeat),
        (930, Fire.autoRepeat)] :=
  fixed_scenario_callbacks (PushButtonAutoRepeat.new 2 (some 0) 500 200 50 (7, 9)) 93 rfl rfl rfl

/-! ### The repeat branches of the derived classes -/

/-- C11. Two-speed period selection. On a poll of
`PushButton2SpeedAutoRepeat::handle` on which the first-notice branch does not
fire, with `held` the value `heldDown()` returned on this poll, the callback is
invoked (once, by the repeat branch) if and only if `held > repeatDelay` and the
unsigned difference `millis - lastChangeTime` is greater than `P`, where `P` is
`repeatPeriodAcc` when `held > repeatDelayAcc` and `repeatPeriod` otherwise;
when it is invoked `lastChangeTime` becomes `millis`, and otherwise no callback
is invoked and `lastChangeTime` is unchanged. -/
theorem twoSpeed_repeat_condition (b : PushButton2SpeedAutoRepeat) (rawPressed : Bool)
    (nowMs : Nat) (hnp : Fire.primaryPress ∉ (b.handle rawPressed nowMs).2) :
    ((b.handle rawPressed nowMs).2 = [Fire.autoRepeat] ↔
      ((b.toPushButtonAutoRepeat.heldDown rawPressed nowMs).2 > b.repeatDelay ∧
        usub nowMs b.lastChangeTime >
          (if (b.toPushButtonAutoRepeat.heldDown rawPressed nowMs).2 > b.repeatDelayAcc
           then b.repeatPeriodAcc else b.repeatPeriod))) ∧
    ((b.handle rawPressed nowMs).2 = [Fire.autoRepeat] ∨ (b.handle rawPressed nowMs).2 = []) ∧
    ((b.handle rawPressed nowMs).2 = [Fire.autoRepeat] →
      (b.handle rawPressed nowMs).1.lastChangeTime = nowMs) ∧
    ((b.handle rawPressed nowMs).2 = [] →
      (b.handle rawPressed nowMs).1.lastChangeTime = b.lastChangeTime) := by
  have hrd : (b.toPushButtonAutoRepeat.heldDown rawPressed nowMs).1.repeatDelay =
      b.repeatDelay := by
    unfold PushButtonAutoRepeat.heldDown; split_ifs <;> rfl
  have hrp : (b.toPushButtonAutoRepeat.heldDown rawPressed nowMs).1.repeatPeriod =
      b.repeatPeriod := by
    unfold PushButtonAutoRepeat.heldDown; split_ifs <;> rfl
  have hlc : (b.toPushButtonAutoRepeat.heldDown rawPressed nowMs).1.lastChangeTime =
      b.lastChangeTime := by
    unfold PushButtonAutoRepeat.heldDown; split_ifs <;> rfl
  revert hnp
  simp only [PushButton2SpeedAutoRepeat.handle, PushButton2SpeedAutoRepeat.handleHeld]
  split_ifs <;> simp_all

/-- What the statements after `heldDown()` do to `currentRepeatPeriod`, for any
held duration. -/
theorem accelerating_handleHeld_period (b : PushButtonAutoAcceleratedRepeat) (d t : Nat) :
    (Fire.primaryPress ∈ (b.handleHeld d t).2 →
      (b.handleHeld d t).1.currentRepeatPeriod = b.repeatPeriod) ∧
    (Fire.autoRepeat ∈ (b.handleHeld d t).2 →
      (b.handleHeld d t).1.currentRepeatPeriod =
        if b.currentRepeatPeriod ≥ b.repeatAcc
        then b.currentRepeatPeriod - b.repeatAcc else b.currentRepeatPeriod) ∧
    ((b.handleHeld d t).2 = [] →
      (b.handleHeld d t).1.currentRepeatPeriod = b.currentRepeatPeriod) ∧
    (Fire.primaryPress ∉ (b.handleHeld d t).2 →
      (b.handleHeld d t).1.currentRepeatPeriod ≤ b.currentRepeatPeriod) := by
  simp only [PushButtonAutoAcceleratedRepeat.handleHeld]
  split_ifs <;> simp_all [usub_self]

/-- The single-poll rule of `currentRepeatPeriod`. -/
theorem accelerating_handle_period (b : PushButtonAutoAcceleratedRepeat) (raw : Bool)
    (t : Nat) :
    (Fire.primaryPress ∈ (b.handle raw t).2 →
      (b.handle raw t).1.currentRepeatPeriod = b.repeatPeriod) ∧
    (Fire.autoRepeat ∈ (b.handle raw t).2 →
      (b.handle raw t).1.currentRepeatPeriod =
        if b.currentRepeatPeriod ≥ b.repeatAcc
        then b.currentRepeatPeriod - b.repeatAcc else b.currentRepeatPeriod) ∧
    ((b.handle raw t).2 = [] →
      (b.handle raw t).1.currentRepeatPeriod = b.currentRepeatPeriod) ∧
    (Fire.primaryPress ∉ (b.handle raw t).2 →
      (b.handle raw t).1.currentRepeatPeriod ≤ b.currentRepeatPeriod) := by
  have hrp : (b.toPushButtonAutoRepeat.heldDown raw t).1.repeatPeriod = b.repeatPeriod := by
    unfold PushButtonAutoRepeat.heldDown; split_ifs <;> rfl
  have h := accelerating_handleHeld_period
    { b with toPushButtonAutoRepeat := (b.toPushButtonAutoRepeat.heldDown raw t).1 }
    (b.toPushButtonAutoRepeat.heldDown raw t).2 t
  simp only [hrp] at h
  exact h

theorem accelerating_period_chain (polls : List (Bool × Nat)) :
    ∀ b : PushButtonAutoAcceleratedRepeat,
      (∀ r ∈ runPolls PushButtonAutoAcceleratedRepeat.handle b polls,
        Fire.primaryPress ∉ r.2) →
      List.Chain (· ≥ ·) b.currentRepeatPeriod
        ((runPolls PushButtonAutoAcceleratedRepeat.handle b polls).map
          (fun r => r.1.currentRepeatPeriod)) := by
  induction polls with
  | nil => intro b _; exact List.Chain.nil
  | cons p ps ih =>
    intro b hno
    simp only [runPolls, List.map_cons]
    refine List.Chain.cons ?_ (ih _ (fun r hr => hno r (by
      simp only [runPolls, List.mem_cons]; exact Or.inr hr)))
    exact (accelerating_handle_period b p.1 p.2).2.2.2
      (hno _ (by simp only [runPolls, List.mem_cons]; exact Or.inl trivial))

/-- C14. Accelerating decrement rule. On a poll of
`PushButtonAutoAcceleratedRepeat::handle`: a first notice sets
`currentRepeatPeriod` to `repeatPeriod`; a repeat sets it to
`currentRepeatPeriod - repeatAcc` when `currentRepeatPeriod ≥ repeatAcc` and
leaves it unchanged otherwise, so it never grows and the subtraction never
wraps; a poll that invokes no callback leaves it unchanged. Hence over any polls
on which no first notice fires, `currentRepeatPeriod` is non-increasing from
poll to poll. -/
theorem accelerating_decrement_rule (b : PushButtonAutoAcceleratedRepeat) (rawPressed : Bool)
    (nowMs : Nat) (polls : List (Bool × Nat)) :
    (Fire.primaryPress ∈ (b.handle rawPressed nowMs).2 →
      (b.handle rawPressed nowMs).1.currentRepeatPeriod = b.repeatPeriod) ∧
    (Fire.autoRepeat ∈ (b.handle rawPressed nowMs).2 →
      (b.handle rawPressed nowMs).1.currentRepeatPeriod =
        if b.currentRepeatPeriod ≥ b.repeatAcc
        then b.currentRepeatPeriod - b.repeatAcc else b.currentRepeatPeriod) ∧
    ((b.handle rawPressed nowMs).2 = [] →
      (b.handle rawPressed nowMs).1.currentRepeatPeriod = b.currentRepeatPeriod) ∧
    ((∀ r ∈ runPolls PushButtonAutoAcceleratedRepeat.handle b polls,
        Fire.primaryPress ∉ r.2) →
      List.Chain (· ≥ ·) b.currentRepeatPeriod
        ((runPolls PushButtonAutoAcceleratedRepeat.handle b polls).map
          (fun r => r.1.currentRepeatPeriod))) :=
  ⟨(accelerating_handle_period b rawPressed nowMs).1,
    (accelerating_handle_period b rawPressed nowMs).2.1,
    (accelerating_handle_period b rawPressed nowMs).2.2.1,
    accelerating_period_chain polls b⟩

/-! ### Debouncing: idempotence and wraparound -/

/-- C17. Idempotence after settling. For a button that is not waiting for the
debounce period, a poll of `stateChanged` whose sample equals
`previousButtonState` returns `BUTTON_NOCHANGE` and leaves the whole object
unchanged, for every clock value; hence any number of further polls with that
sample all return `BUTTON_NOCHANGE` and leave the object unchanged. -/
theorem stateChanged_idempotent (b : PushButton) (nowMs : Nat) (polls : List (Bool × Nat))
    (hw : b.debounceWaiting = false) :
    b.stateChanged b.previousButtonState nowMs = (b, BUTTON_NOCHANGE) ∧
    ((∀ p ∈ polls, p.1 = b.previousButtonState) →
      runPolls PushButton.stateChanged b polls = polls.map (fun _ => (b, BUTTON_NOCHANGE))) := by
  have hstep : ∀ t, b.stateChanged b.previousButtonState t = (b, BUTTON_NOCHANGE) := by
    intro t
    simp [PushButton.stateChanged, hw]
  refine ⟨hstep nowMs, ?_⟩
  intro hsame
  induction polls with
  | nil => rfl
  | cons p ps ih =>
    have hp : p.1 = b.previousButtonState := hsame p (List.mem_cons_self p ps)
    simp only [runPolls, List.map_cons, hp, hstep]
    rw [ih (fun q hq => hsame q (List.mem_cons_of_mem p hq))]

theorem usub_wrapped (ts e : Nat) (he : e < ULONG_RANGE) :
    usub ((ts + e) % ULONG_RANGE) ts = e := by
  unfold usub
  unfold ULONG_RANGE at *
  omega

/-- C18. Wraparound-safe window test. With the clock a 32 bit counter, for every
time stamp `ts` and every true elapsed time `e < 2 ^ 32`, the difference
`millis() - stateChangedTimeStamp` that `stateChanged` and `heldDown` compute
at `millis() = (ts + e) mod 2 ^ 32` equals `e`, so the test against
`debounceDelay` decides exactly `e > debounceDelay`: a waiting button leaves
the waiting state on that poll if and only if `e > debounceDelay`, also when
the counter has overflowed in between. -/
theorem window_test_wraparound_safe (ts e : Nat) (he : e < ULONG_RANGE) :
    usub ((ts + e) % ULONG_RANGE) ts = e ∧
    (∀ (b : PushButton) (raw : Bool), b.debounceWaiting = true →
      b.stateChangedTimeStamp = ts →
      ((b.stateChanged raw ((ts + e) % ULONG_RANGE)).1.debounceWaiting = false ↔
        e > b.debounceDelay)) ∧
    (∀ (b : PushButtonAutoRepeat) (raw : Bool), b.debounceWaiting = true →
      b.stateChangedTimeStamp = ts →
      ((b.heldDown raw ((ts + e) % ULONG_RANGE)).1.debounceWaiting = false ↔
        e > b.debounceDelay)) := by
  have hu := usub_wrapped ts e he
  refine ⟨hu, ?_, ?_⟩
  · intro b raw hw hts
    subst hts
    by_cases hgt : e > b.debounceDelay <;>
      simp [PushButton.stateChanged, hw, hu, hgt]
  · intro b raw hw hts
    subst hts
    by_cases hgt : e > b.debounceDelay <;>
      simp [PushButtonAutoRepeat.heldDown, hw, hu, hgt]

/-! ### Re-initialisation -/

/-- C20. Re-init forces idle. For every object of one of the three autorepeat
classes, in any state, `init()` yields `previousButtonState = false`,
`debounceWaiting = false` and `singlePress = false`, and changes no other
member: the pin, `debounceDelay`, `repeatDelay`, `repeatPeriod`, the callback
and the thresholds and periods of the derived classes are as before. -/
theorem init_forces_idle (v : AutoRepeatButton) (b : PushButtonAutoRepeat)
    (b2 : PushButton2SpeedAutoRepeat) (bA : PushButtonAutoAcceleratedRepeat) :
    (v.init.base.previousButtonState = false ∧ v.init.base.debounceWaiting = false ∧
      v.init.base.singlePress = false) ∧
    (v.init.base.pin = v.base.pin ∧ v.init.base.debounceDelay = v.base.debounceDelay ∧
      v.init.autoRepeatPart.repeatDelay = v.autoRepeatPart.repeatDelay ∧
      v.init.autoRepeatPart.repeatPeriod = v.autoRepeatPart.repeatPeriod ∧
      v.init.autoRepeatPart.keyPressCallback = v.autoRepeatPart.keyPressCallback) ∧
    b.init = { b with debounceWaiting := false, previousButtonState := false,
                      singlePress := false } ∧
    (AutoRepeatButton.twoSpeed b2).init =
      AutoRepeatButton.twoSpeed { b2 with debounceWaiting := false,
                                          previousButtonState := false,
                                          singlePress := false } ∧
    (AutoRepeatButton.accelerating bA).init =
      AutoRepeatButton.accelerating { bA with debounceWaiting := false,
                                              previousButtonState := false,
                                              singlePress := false } := by
  refine ⟨?_, ?_, rfl, rfl, rfl⟩
  · cases v <;> exact ⟨rfl, rfl, rfl⟩
  · cases v <;> exact ⟨rfl, rfl, rfl, rfl, rfl⟩

/-! ### The spacing threshold of the accelerating class -/

theorem heldDown_lastChangeTime (b : PushButtonAutoRepeat) (raw : Bool) (t : Nat) :
    (b.heldDown raw t).1.lastChangeTime = b.lastChangeTime := by
  unfold PushButtonAutoRepeat.heldDown
  split_ifs <;> rfl

theorem uadd_ge_right (a m : Nat) (h : a + m < ULONG_RANGE) : m ≤ uadd a m := by
  unfold uadd
  rw [Nat.mod_eq_of_lt h]
  omega

/-- No repeat on a poll whose elapsed time since `lastChangeTime` does not
exceed `repeatMinPeriod`, when the threshold sum does not wrap. -/
theorem accelerating_handleHeld_no_early_repeat (b : PushButtonAutoAcceleratedRepeat)
    (d t : Nat) (hsum : b.currentRepeatPeriod + b.repeatMinPeriod < ULONG_RANGE)
    (hel : usub t b.lastChangeTime ≤ b.repeatMinPeriod) :
    Fire.autoRepeat ∉ (b.handleHeld d t).2 := by
  have hge := uadd_ge_right _ _ hsum
  simp only [PushButtonAutoAcceleratedRepeat.handleHeld]
  split_ifs <;> simp_all [usub_self] <;> omega

/-- C13 (as amended). For every state and configuration of
`PushButtonAutoAcceleratedRepeat` in which the sum
`currentRepeatPeriod + repeatMinPeriod` stays below `2 ^ 32`, the threshold that
`handle()` computes in `unsigned long` arithmetic is not less than
`repeatMinPeriod`, and no repeat fires on a poll on which the unsigned
difference `millis - lastChangeTime` is at most `repeatMinPeriod`. -/
theorem accelerating_threshold_floor (b : PushButtonAutoAcceleratedRepeat) (rawPressed : Bool)
    (nowMs : Nat) (hsum : b.currentRepeatPeriod + b.repeatMinPeriod < ULONG_RANGE) :
    b.repeatMinPeriod ≤ uadd b.currentRepeatPeriod b.repeatMinPeriod ∧
    (usub nowMs b.lastChangeTime ≤ b.repeatMinPeriod →
      Fire.autoRepeat ∉ (b.handle rawPressed nowMs).2) := by
  refine ⟨uadd_ge_right _ _ hsum, ?_⟩
  intro hel
  unfold PushButtonAutoAcceleratedRepeat.handle
  apply accelerating_handleHeld_no_early_repeat
  · exact hsum
  · show usub nowMs (b.toPushButtonAutoRepeat.heldDown rawPressed nowMs).1.lastChangeTime ≤ _
    rw [heldDown_lastChangeTime]
    exact hel

/-- C13 (as stated, refuted). The threshold can be less than `repeatMinPeriod`:
with `repeatPeriod = 2 ^ 32 - 50` and `repeatMinPeriod = 100` the first notice
at `t = 60` leaves `currentRepeatPeriod + repeatMinPeriod` wrapped to 50, and
the poll at `t = 120` fires a repeat 60 ms after the first notice, within
`repeatMinPeriod` ms of it. -/
theorem accelerating_threshold_wraps :
    (¬ ∀ b : PushButtonAutoAcceleratedRepeat,
      b.repeatMinPeriod ≤ uadd b.currentRepeatPeriod b.repeatMinPeriod) ∧
    (runPolls PushButtonAutoAcceleratedRepeat.handle wrappingPeriodButton
        [(true, 0), (true, 60), (true, 120)]).map
        (fun r => (r.2, r.1.lastChangeTime, r.1.repeatMinPeriod,
          uadd r.1.currentRepeatPeriod r.1.repeatMinPeriod)) =
      [([], 0, 100, 100), ([Fire.primaryPress], 60, 100, 50),
        ([Fire.autoRepeat], 120, 100, 40)] := by
  constructor
  · intro h
    have h1 := h (finalState PushButtonAutoAcceleratedRepeat.handle wrappingPeriodButton
      [(true, 0), (true, 60)])
    revert h1
    decide
  · decide

/-! ### The bounce scenario -/

theorem runPolls_cons {σ ρ : Type} (step : σ → Bool → Nat → σ × ρ) (s s1 : σ)
    (raw : Bool) (t : Nat) (r : ρ) (ps : List (Bool × Nat))
    (h : step s raw t = (s1, r)) :
    runPolls step s ((raw, t) :: ps) = (s1, r) :: runPolls step s1 ps := by
  simp only [runPolls, h]

theorem stateChanged_spotted (b : PushButton) (raw : Bool) (t : Nat)
    (hw : b.debounceWaiting = false) (hne : raw ≠ b.previousButtonState) :
    b.stateChanged raw t =
      ({ b with debounceWaiting := true, stateChangedTimeStamp := t }, BUTTON_NOCHANGE) := by
  obtain ⟨pin, dd, ts, w, prev, sp⟩ := b
  simp only at hw hne
  subst hw
  cases raw <;> cases prev <;> simp_all [PushButton.stateChanged]

theorem stateChanged_waiting_early (b : PushButton) (raw : Bool) (t : Nat)
    (hw : b.debounceWaiting = true)
    (hearly : ¬ usub t b.stateChangedTimeStamp > b.debounceDelay) :
    b.stateChanged raw t = (b, BUTTON_NOCHANGE) := by
  simp [PushButton.stateChanged, hw, hearly]

theorem stateChanged_waiting_late (b : PushButton) (raw : Bool) (t : Nat)
    (hw : b.debounceWaiting = true)
    (hlate : usub t b.stateChangedTimeStamp > b.debounceDelay) :
    b.stateChanged raw t =
      ({ b with debounceWaiting := false, previousButtonState := raw },
        if Bool.xor b.previousButtonState raw then edgeCode b.previousButtonState raw
        else BUTTON_NOCHANGE) := by
  simp [PushButton.stateChanged, hw, hlate]

/-- C16 (as amended). Bounce scenario, debounce delay 50 ms, from the
initialised button, `stateChanged` polled with the raw input pressed at
`t = 0`, released at `t = 20`, pressed at `t = 40`, and either sample at
`t = 50`: every one of these polls returns `BUTTON_NOCHANGE`, and after each of
them, the poll at `t = 50` included, the button is still waiting
(`debounceWaiting` set, `previousButtonState` released, time stamp 0), because
`50 > 50` fails. The burst is settled by the next poll (here at `t = 60`): a
released sample cancels the transition with `BUTTON_NOCHANGE`, a pressed sample
returns `BUTTON_PRESSED`. -/
theorem bounce_burst_stays_pending (b : PushButton) (raw50 : Bool)
    (hdd : b.debounceDelay = 50) :
    runPolls PushButton.stateChanged b.init (bouncePolls raw50) =
      List.replicate 4
        ({ b.init with debounceWaiting := true, stateChangedTimeStamp := 0 },
          BUTTON_NOCHANGE) ∧
    PushButton.stateChanged { b.init with debounceWaiting := true, stateChangedTimeStamp := 0 }
        false 60 =
      ({ b.init with stateChangedTimeStamp := 0 }, BUTTON_NOCHANGE) ∧
    PushButton.stateChanged { b.init with debounceWaiting := true, stateChangedTimeStamp := 0 }
        true 60 =
      ({ b.init with stateChangedTimeStamp := 0, previousButtonState := true },
        BUTTON_PRESSED) := by
  have e0 := stateChanged_spotted b.init true 0 rfl (by simp [PushButton.init])
  obtain ⟨s1, hs1⟩ : ∃ s1 : PushButton,
      s1 = { b.init with debounceWaiting := true, stateChangedTimeStamp := 0 } := ⟨_, rfl⟩
  rw [← hs1] at e0 ⊢
  have hw1 : s1.debounceWaiting = true := by rw [hs1]
  have hp1 : s1.previousButtonState = false := by rw [hs1]; rfl
  have hts1 : s1.stateChangedTimeStamp = 0 := by rw [hs1]
  have hdd1 : s1.debounceDelay = 50 := by rw [hs1]; exact hdd
  have hu : ∀ t, t ≤ 60 → usub t s1.stateChangedTimeStamp = t := by
    intro t ht
    rw [hts1, usub_eq_sub (Nat.zero_le t) (by unfold ULONG_RANGE; omega)]
    rfl
  have early : ∀ raw t, t ≤ 50 → s1.stateChanged raw t = (s1, BUTTON_NOCHANGE) := by
    intro raw t ht
    apply stateChanged_waiting_early s1 raw t hw1
    rw [hu t (by omega), hdd1]
    omega
  have late : ∀ raw, s1.stateChanged raw 60 =
      ({ s1 with debounceWaiting := false, previousButtonState := raw },
        if Bool.xor s1.previousButtonState raw then edgeCode s1.previousButtonState raw
        else BUTTON_NOCHANGE) := by
    intro raw
    apply stateChanged_waiting_late s1 raw 60 hw1
    rw [hu 60 (by omega), hdd1]
    omega
  refine ⟨?_, ?_, ?_⟩
  · unfold bouncePolls
    rw [runPolls_cons _ _ _ _ _ _ _ e0, runPolls_cons _ _ _ _ _ _ _ (early false 20 (by omega)),
      runPolls_cons _ _ _ _ _ _ _ (early true 40 (by omega)),
      runPolls_cons _ _ _ _ _ _ _ (early raw50 50 (by omega))]
    rfl
  · rw [late false, hp1, hs1]
    rfl
  · rw [late true, hp1, hs1]
    rfl

/-- C16 (as stated, refuted). With a debounce delay of 50 ms the poll at
`t = 50` of the bounce scenario does not cancel the pending transition:
whichever sample it takes, `debounceWaiting` is still set after it. -/
theorem bounce_not_cancelled_at_fifty :
    (finalState PushButton.stateChanged
        (PushButtonAutoRepeat.new 2 none 500 200 50 (0, 0)).toPushButton.init
        (bouncePolls true)).debounceWaiting = true ∧
    (finalState PushButton.stateChanged
        (PushButtonAutoRepeat.new 2 none 500 200 50 (0, 0)).toPushButton.init
        (bouncePolls false)).debounceWaiting = true := by
  decide

/-! ### The accelerating scenario -/

set_option maxRecDepth 100000 in
/-- The accelerating button with default arguments, held and polled every 10 ms
up to `t = 3190`: the polls that invoke the callback, with the held duration,
the invocation and `currentRepeatPeriod` after the poll. -/
theorem accelerating_scenario_periods :
    periodLog defaultAccelerating (everyTenMs alwaysPressed 0 320) =
      [(60, 60, [Fire.primaryPress], 200), (510, 510, [Fire.autoRepeat], 190),
        (730, 730, [Fire.autoRepeat], 180), (940, 940, [Fire.autoRepeat], 170),
        (1140, 1140, [Fire.autoRepeat], 160), (1330, 1330, [Fire.autoRepeat], 150),
        (1510, 1510, [Fire.autoRepeat], 140), (1680, 1680, [Fire.autoRepeat], 130),
        (1840, 1840, [Fire.autoRepeat], 120), (1990, 1990, [Fire.autoRepeat], 110),
        (2130, 2130, [Fire.autoRepeat], 100), (2260, 2260, [Fire.autoRepeat], 90),
        (2380, 2380, [Fire.autoRepeat], 80), (2490, 2490, [Fire.autoRepeat], 70),
        (2590, 2590, [Fire.autoRepeat], 60), (2680, 2680, [Fire.autoRepeat], 50),
        (2760, 2760, [Fire.autoRepeat], 40), (2830, 2830, [Fire.autoRepeat], 30),
        (2890, 2890, [Fire.autoRepeat], 20), (2940, 2940, [Fire.autoRepeat], 10),
        (2980, 2980, [Fire.autoRepeat], 0), (3010, 3010, [Fire.autoRepeat], 0),
        (3040, 3040, [Fire.autoRepeat], 0), (3070, 3070, [Fire.autoRepeat], 0),
        (3100, 3100, [Fire.autoRepeat], 0), (3130, 3130, [Fire.autoRepeat], 0),
        (3160, 3160, [Fire.autoRepeat], 0), (3190, 3190, [Fire.autoRepeat], 0)] := by
  decide

theorem accelerating_handleHeld_config (b : PushButtonAutoAcceleratedRepeat) (d t : Nat) :
    (b.handleHeld d t).1.repeatPeriod = b.repeatPeriod ∧
    (b.handleHeld d t).1.repeatMinPeriod = b.repeatMinPeriod ∧
    (b.handleHeld d t).1.repeatAcc = b.repeatAcc ∧
    (b.handleHeld d t).1.repeatDelayAcc = b.repeatDelayAcc := by
  simp only [PushButtonAutoAcceleratedRepeat.handleHeld]
  split_ifs <;> exact ⟨rfl, rfl, rfl, rfl⟩

theorem heldDown_repeatPeriod (b : PushButtonAutoRepeat) (raw : Bool) (t : Nat) :
    (b.heldDown raw t).1.repeatPeriod = b.repeatPeriod := by
  unfold PushButtonAutoRepeat.heldDown
  split_ifs <;> rfl

/-- A poll of the accelerating `handle()` leaves the configuration of the
repeat periods as it is. -/
theorem accelerating_handle_config (b : PushButtonAutoAcceleratedRepeat) (raw : Bool)
    (t : Nat) :
    (b.handle raw t).1.repeatPeriod = b.repeatPeriod ∧
    (b.handle raw t).1.repeatMinPeriod = b.repeatMinPeriod ∧
    (b.handle raw t).1.repeatAcc = b.repeatAcc ∧
    (b.handle raw t).1.repeatDelayAcc = b.repeatDelayAcc := by
  have h := accelerating_handleHeld_config
    { b with toPushButtonAutoRepeat := (b.toPushButtonAutoRepeat.heldDown raw t).1 }
    (b.toPushButtonAutoRepeat.heldDown raw t).2 t
  simp only [heldDown_repeatPeriod] at h
  exact h

theorem accelerating_finalState_config (polls : List (Bool × Nat)) :
    ∀ b : PushButtonAutoAcceleratedRepeat,
      (finalState PushButtonAutoAcceleratedRepeat.handle b polls).repeatPeriod =
          b.repeatPeriod ∧
      (finalState PushButtonAutoAcceleratedRepeat.handle b polls).repeatMinPeriod =
          b.repeatMinPeriod := by
  induction polls with
  | nil => intro b; exact ⟨rfl, rfl⟩
  | cons p ps ih =>
    intro b
    obtain ⟨h1, h2⟩ := ih (b.handle p.1 p.2).1
    obtain ⟨c1, c2, _, _⟩ := accelerating_handle_config b p.1 p.2
    exact ⟨by simp only [finalState]; rw [h1, c1], by simp only [finalState]; rw [h2, c2]⟩

/-- Once `currentRepeatPeriod` is at most `repeatPeriod`, it stays so. -/
theorem accelerating_finalState_period_le (polls : List (Bool × Nat)) :
    ∀ b : PushButtonAutoAcceleratedRepeat, b.currentRepeatPeriod ≤ b.repeatPeriod →
      (finalState PushButtonAutoAcceleratedRepeat.handle b polls).currentRepeatPeriod ≤
        b.repeatPeriod := by
  induction polls with
  | nil => intro b hb; exact hb
  | cons p ps ih =>
    intro b hb
    obtain ⟨hprim, _, _, hno⟩ := accelerating_handle_period b p.1 p.2
    obtain ⟨c1, _, _, _⟩ := accelerating_handle_config b p.1 p.2
    have hstep : (b.handle p.1 p.2).1.currentRepeatPeriod ≤
        (b.handle p.1 p.2).1.repeatPeriod := by
      rw [c1]
      by_cases hp : Fire.primaryPress ∈ (b.handle p.1 p.2).2
      · exact Nat.le_of_eq (hprim hp)
      · exact Nat.le_trans (hno hp) hb
    have h := ih (b.handle p.1 p.2).1 hstep
    rw [c1] at h
    simpa only [finalState] using h

/-- C12 (as amended). Accelerating floor. For every configuration and every
sequence of `PushButtonAutoAcceleratedRepeat::handle` polls, in every state
reached after a first notice has fired, `currentRepeatPeriod` is at most
`repeatPeriod`, and if `repeatPeriod + repeatMinPeriod` is below `2 ^ 32` the
spacing threshold `currentRepeatPeriod + repeatMinPeriod` is at least
`repeatMinPeriod`. The member `currentRepeatPeriod` itself is not bounded below
by `repeatMinPeriod`: with period 200, decrement 10 and floor 20, held and
polled every 10 ms, it shrinks by 10 per repeat from 200 to 0 and stays there,
so the spacing threshold saturates at 20. -/
theorem accelerating_floor_after_first_notice (b : PushButtonAutoAcceleratedRepeat)
    (pre post : List (Bool × Nat)) (rawPressed : Bool) (nowMs : Nat)
    (hfire : Fire.primaryPress ∈
      ((finalState PushButtonAutoAcceleratedRepeat.handle b pre).handle rawPressed nowMs).2) :
    (finalState PushButtonAutoAcceleratedRepeat.handle b
        (pre ++ (rawPressed, nowMs) :: post)).currentRepeatPeriod ≤ b.repeatPeriod ∧
    (b.repeatPeriod + b.repeatMinPeriod < ULONG_RANGE →
      b.repeatMinPeriod ≤
        uadd (finalState PushButtonAutoAcceleratedRepeat.handle b
            (pre ++ (rawPressed, nowMs) :: post)).currentRepeatPeriod
          (finalState PushButtonAutoAcceleratedRepeat.handle b
            (pre ++ (rawPressed, nowMs) :: post)).repeatMinPeriod) ∧
    (periodLog defaultAccelerating (everyTenMs alwaysPressed 0 320)).map
        (fun e => (e.1, e.2.2.2)) =
      [(60, 200), (510, 190), (730, 180), (940, 170), (1140, 160), (1330, 150),
        (1510, 140), (1680, 130), (1840, 120), (1990, 110), (2130, 100), (2260, 90),
        (2380, 80), (2490, 70), (2590, 60), (2680, 50), (2760, 40), (2830, 30),
        (2890, 20), (2940, 10), (2980, 0), (3010, 0), (3040, 0), (3070, 0), (3100, 0),
        (3130, 0), (3160, 0), (3190, 0)] := by
  obtain ⟨s, hs⟩ : ∃ s, s = finalState PushButtonAutoAcceleratedRepeat.handle b pre := ⟨_, rfl⟩
  rw [← hs] at hfire
  obtain ⟨sp, smin⟩ := accelerating_finalState_config pre b
  rw [← hs] at sp smin
  obtain ⟨c1, c2, _, _⟩ := accelerating_handle_config s rawPressed nowMs
  have hset := (accelerating_handle_period s rawPressed nowMs).1 hfire
  have hle := accelerating_finalState_period_le post (s.handle rawPressed nowMs).1
    (by rw [hset, c1])
  obtain ⟨_, fmin⟩ := accelerating_finalState_config post (s.handle rawPressed nowMs).1
  have hfinal : finalState PushButtonAutoAcceleratedRepeat.handle b
      (pre ++ (rawPressed, nowMs) :: post) =
      finalState PushButtonAutoAcceleratedRepeat.handle (s.handle rawPressed nowMs).1 post := by
    rw [finalState_append, ← hs]
    rfl
  rw [hfinal, fmin, c2, smin]
  rw [c1, sp] at hle
  refine ⟨hle, ?_, ?_⟩
  · intro hsum
    exact uadd_ge_right _ _ (by omega)
  · rw [accelerating_scenario_periods]
    rfl

/-- C12 (as stated, refuted). With period 200, decrement 10 and floor 20
(so `repeatPeriod ≥ repeatMinPeriod`), held and polled every 10 ms: the first
notice fires on the poll at `t = 60`, and after the repeat on the poll at
`t = 2980` `currentRepeatPeriod` is 0, below `repeatMinPeriod = 20`; the
spacing threshold is then 20, not 40. -/
theorem accelerating_period_below_floor :
    defaultAccelerating.repeatMinPeriod ≤ defaultAccelerating.repeatPeriod ∧
    (60, 60, [Fire.primaryPress], 200) ∈
      periodLog defaultAccelerating (everyTenMs alwaysPressed 0 320) ∧
    (2980, 2980, [Fire.autoRepeat], 0) ∈
      periodLog defaultAccelerating (everyTenMs alwaysPressed 0 320) ∧
    ¬ defaultAccelerating.repeatMinPeriod ≤ 0 ∧
    uadd 0 defaultAccelerating.repeatMinPeriod = 20 := by
  rw [accelerating_scenario_periods]
  decide

/-! ### The accelerate delay -/

theorem accelerating_handleHeld_delayAcc_frame (b : PushButtonAutoAcceleratedRepeat)
    (x d t : Nat) :
    PushButtonAutoAcceleratedRepeat.handleHeld { b with repeatDelayAcc := x } d t =
      ({ (b.handleHeld d t).1 with repeatDelayAcc := x }, (b.handleHeld d t).2) := by
  simp only [PushButtonAutoAcceleratedRepeat.handleHeld]
  split_ifs <;> rfl

/-- C15 (the code at the failing input). The member `repeatDelayAcc` has no
influence on `PushButtonAutoAcceleratedRepeat::handle`: a poll of an object
with any other value `x` of it does what the poll of the object itself does.
With the default arguments (repeat delay 500 ms, period 200 ms, accelerate
delay 2000 ms, decrement 10 ms), held and polled every 10 ms, the first notice
at `t = 60` sets `currentRepeatPeriod` to 200 and the poll at `t = 510`, whose
held duration 510 is not more than the accelerate delay, fires the first repeat
and shortens `currentRepeatPeriod` to 190. -/
theorem accelerating_ignores_accelerate_delay (b : PushButtonAutoAcceleratedRepeat)
    (x : Nat) (rawPressed : Bool) (nowMs : Nat) :
    PushButtonAutoAcceleratedRepeat.handle { b with repeatDelayAcc := x } rawPressed nowMs =
      ({ (b.handle rawPressed nowMs).1 with repeatDelayAcc := x },
        (b.handle rawPressed nowMs).2) ∧
    (defaultAccelerating.repeatDelayAcc = 2000 ∧
      (60, 60, [Fire.primaryPress], 200) ∈
        periodLog defaultAccelerating (everyTenMs alwaysPressed 0 320) ∧
      (510, 510, [Fire.autoRepeat], 190) ∈
        periodLog defaultAccelerating (everyTenMs alwaysPressed 0 320)) := by
  constructor
  · obtain ⟨par, rda, ra, rmp, crp⟩ := b
    exact accelerating_handleHeld_delayAcc_frame
      ⟨(par.heldDown rawPressed nowMs).1, rda, ra, rmp, crp⟩ x
      (par.heldDown rawPressed nowMs).2 nowMs
  · rw [accelerating_scenario_periods]
    decide

/-! ### The callback pointer -/

theorem heldDown_callback_frame (b : PushButtonAutoRepeat) (cb : Option Nat)
    (raw : Bool) (t : Nat) :
    PushButtonAutoRepeat.heldDown { b with keyPressCallback := cb } raw t =
      ({ (b.heldDown raw t).1 with keyPressCallback := cb }, (b.heldDown raw t).2) := by
  unfold PushButtonAutoRepeat.heldDown
  split_ifs <;> rfl

theorem fixed_handleHeld_callback_frame (b : PushButtonAutoRepeat) (cb : Option Nat)
    (d t : Nat) :
    PushButtonAutoRepeat.handleHeld { b with keyPressCallback := cb } d t =
      ({ (b.handleHeld d t).1 with keyPressCallback := cb }, (b.handleHeld d t).2) := by
  simp only [PushButtonAutoRepeat.handleHeld]
  split_ifs <;> rfl

theorem twoSpeed_handleHeld_callback_frame (b : PushButton2SpeedAutoRepeat)
    (cb : Option Nat) (d t : Nat) :
    PushButton2SpeedAutoRepeat.handleHeld { b with keyPressCallback := cb } d t =
      ({ (b.handleHeld d t).1 with keyPressCallback := cb }, (b.handleHeld d t).2) := by
  simp only [PushButton2SpeedAutoRepeat.handleHeld]
  split_ifs <;> rfl

theorem accelerating_handleHeld_callback_frame (b : PushButtonAutoAcceleratedRepeat)
    (cb : Option Nat) (d t : Nat) :
    PushButtonAutoAcceleratedRepeat.handleHeld { b with keyPressCallback := cb } d t =
      ({ (b.handleHeld d t).1 with keyPressCallback := cb }, (b.handleHeld d t).2) := by
  simp only [PushButtonAutoAcceleratedRepeat.handleHeld]
  split_ifs <;> rfl

/-- What a poll of `handle()` does to the object and which invocations it makes
does not depend on the callback pointer. -/
theorem handle_callback_frame (v : AutoRepeatButton) (cb : Option Nat) (raw : Bool)
    (t : Nat) :
    (v.registerKeyPressCallback cb).handle raw t =
      ((v.handle raw t).1.registerKeyPressCallback cb, (v.handle raw t).2) := by
  cases v with
  | fixed b =>
    have h := fixed_handleHeld_callback_frame (b.heldDown raw t).1 cb (b.heldDown raw t).2 t
    simp only [AutoRepeatButton.registerKeyPressCallback, AutoRepeatButton.handle,
      PushButtonAutoRepeat.handle, heldDown_callback_frame, h]
  | twoSpeed b =>
    obtain ⟨par, rda, rpa⟩ := b
    have h := twoSpeed_handleHeld_callback_frame ⟨(par.heldDown raw t).1, rda, rpa⟩ cb
      (par.heldDown raw t).2 t
    simp only [AutoRepeatButton.registerKeyPressCallback, AutoRepeatButton.handle,
      PushButton2SpeedAutoRepeat.handle, heldDown_callback_frame]
    simp only at h
    rw [h]
  | accelerating b =>
    obtain ⟨par, rda, ra, rmp, crp⟩ := b
    have h := accelerating_handleHeld_callback_frame
      ⟨(par.heldDown raw t).1, rda, ra, rmp, crp⟩ cb (par.heldDown raw t).2 t
    simp only [AutoRepeatButton.registerKeyPressCallback, AutoRepeatButton.handle,
      PushButtonAutoAcceleratedRepeat.handle, heldDown_callback_frame]
    simp only at h
    rw [h]

theorem registerKeyPressCallback_callback (v : AutoRepeatButton) (cb : Option Nat) :
    (v.registerKeyPressCallback cb).autoRepeatPart.keyPressCallback = cb := by
  cases v <;> rfl

/-- C19 (as amended). Polling with no callback registered is safe only on polls
on which neither the first-notice nor the repeat branch fires. For each of the
three classes, with the callback pointer `NULL`: a `handle()` poll on which no
branch fires completes without calling anything, and a poll on which a branch
fires calls through the `NULL` pointer and has no defined result. With a
callback registered every poll completes, and the object after the poll is, up
to the callback pointer, the one the same poll yields without a callback: the
update of the state does not depend on the pointer. -/
theorem handle_needs_registered_callback (v : AutoRepeatButton) (rawPressed : Bool)
    (nowMs : Nat) (f : Nat) :
    (v.autoRepeatPart.keyPressCallback = none →
      ((v.handle rawPressed nowMs).2 = [] →
        v.handleCalling rawPressed nowMs = some ((v.handle rawPressed nowMs).1, [])) ∧
      ((v.handle rawPressed nowMs).2 ≠ [] → v.handleCalling rawPressed nowMs = none)) ∧
    (v.registerKeyPressCallback (some f)).handleCalling rawPressed nowMs =
      some (((v.handle rawPressed nowMs).1).registerKeyPressCallback (some f),
        (v.handle rawPressed nowMs).2.map (fun _ => f)) := by
  constructor
  · intro hnull
    unfold AutoRepeatButton.handleCalling
    rw [hnull]
    constructor
    · intro h; simp [h]
    · intro h; simp [h]
  · unfold AutoRepeatButton.handleCalling
    rw [registerKeyPressCallback_callback, handle_callback_frame]

/-- C19 (as stated, refuted). For an object of each of the three classes
constructed with the default `NULL` callback, polled pressed at `t = 0` and at
`t = 60` (debounce delay 50 ms): the callback pointer is still `NULL` on the
second poll, the first-notice branch fires on it and invokes `keyPressCallback`,
and the poll, calling through the `NULL` pointer, has no defined result. -/
theorem null_callback_is_called :
    defaultButtonsWithoutCallback.map
        (fun v => ((v.handle true 0).1.autoRepeatPart.keyPressCallback,
          ((v.handle true 0).1.handle true 60).2,
          (v.handle true 0).1.handleCalling true 60)) =
      [(none, [Fire.primaryPress], none), (none, [Fire.primaryPress], none),
        (none, [Fire.primaryPress], none)] := by
  decide

/-! ### Instances at concrete inputs, continued -/

/-- C11 at a concrete input: a two-speed button (delay 500 ms, period 200 ms,
fast delay 2000 ms, fast period 50 ms), held since `t = 0` with its last
callback at `t = 2000`, polled at `t = 2060`: the held duration 2060 selects
the fast period, and the repeat fires. -/
theorem twoSpeed_repeat_condition_witness :
    Fire.primaryPress ∉
      (PushButton2SpeedAutoRepeat.handle
        { toPushButtonAutoRepeat := { scenarioAfter60 with lastChangeTime := 2000 },
          repeatDelayAcc := 2000, repeatPeriodAcc := 50 } true 2060).2 ∧
    (PushButton2SpeedAutoRepeat.handle
        { toPushButtonAutoRepeat := { scenarioAfter60 with lastChangeTime := 2000 },
          repeatDelayAcc := 2000, repeatPeriodAcc := 50 } true 2060).2 = [Fire.autoRepeat] ∧
    (PushButton2SpeedAutoRepeat.handle
        { toPushButtonAutoRepeat := { scenarioAfter60 with lastChangeTime := 2000 },
          repeatDelayAcc := 2000, repeatPeriodAcc := 50 } true 2060).1.lastChangeTime = 2060 :=
  ⟨by decide,
    (twoSpeed_repeat_condition
      { toPushButtonAutoRepeat := { scenarioAfter60 with lastChangeTime := 2000 },
        repeatDelayAcc := 2000, repeatPeriodAcc := 50 } true 2060 (by decide)).1.2 (by decide),
    (twoSpeed_repeat_condition
      { toPushButtonAutoRepeat := { scenarioAfter60 with lastChangeTime := 2000 },
        repeatDelayAcc := 2000, repeatPeriodAcc := 50 } true 2060 (by decide)).2.2.1
      (by decide)⟩

/-- C12 (as amended) at a concrete input: the default accelerating button,
polled pressed at `t = 0`, with the first notice at `t = 60` and two more polls. -/
theorem accelerating_floor_after_first_notice_witness :
    Fire.primaryPress ∈
      ((finalState PushButtonAutoAcceleratedRepeat.handle defaultAccelerating
        [(true, 0)]).handle true 60).2 ∧
    (finalState PushButtonAutoAcceleratedRepeat.handle defaultAccelerating
        ([(true, 0)] ++ (true, 60) :: [(true, 510), (true, 730)])).currentRepeatPeriod ≤
      defaultAccelerating.repeatPeriod :=
  ⟨by decide,
    (accelerating_floor_after_first_notice defaultAccelerating [(true, 0)]
      [(true, 510), (true, 730)] true 60 (by decide)).1⟩

/-- C13 (as amended) at a concrete input: the default accelerating button after
its first notice at `t = 60`, polled at `t = 70`. -/
theorem accelerating_threshold_floor_witness :
    (finalState PushButtonAutoAcceleratedRepeat.handle defaultAccelerating
        [(true, 0), (true, 60)]).currentRepeatPeriod +
      (finalState PushButtonAutoAcceleratedRepeat.handle defaultAccelerating
        [(true, 0), (true, 60)]).repeatMinPeriod < ULONG_RANGE ∧
    (finalState PushButtonAutoAcceleratedRepeat.handle defaultAccelerating
        [(true, 0), (true, 60)]).repeatMinPeriod ≤
      uadd
        (finalState PushButtonAutoAcceleratedRepeat.handle defaultAccelerating
          [(true, 0), (true, 60)]).currentRepeatPeriod
        (finalState PushButtonAutoAcceleratedRepeat.handle defaultAccelerating
          [(true, 0), (true, 60)]).repeatMinPeriod :=
  ⟨by decide,
    (accelerating_threshold_floor
      (finalState PushButtonAutoAcceleratedRepeat.handle defaultAccelerating
        [(true, 0), (true, 60)]) true 70 (by decide)).1⟩

/-- C14 at a concrete input: on the default accelerating button the first
notice at `t = 60` sets `currentRepeatPeriod` to `repeatPeriod`. -/
theorem accelerating_decrement_rule_witness :
    Fire.primaryPress ∈
      ((finalState PushButtonAutoAcceleratedRepeat.handle defaultAccelerating
        [(true, 0)]).handle true 60).2 ∧
    ((finalState PushButtonAutoAcceleratedRepeat.handle defaultAccelerating
        [(true, 0)]).handle true 60).1.currentRepeatPeriod =
      (finalState PushButtonAutoAcceleratedRepeat.handle defaultAccelerating
        [(true, 0)]).repeatPeriod :=
  ⟨by decide,
    (accelerating_decrement_rule
      (finalState PushButtonAutoAcceleratedRepeat.handle defaultAccelerating [(true, 0)])
      true 60 []).1 (by decide)⟩

/-- C16 (as amended) at a concrete input: a button with debounce delay 50 ms and
a pressed sample at `t = 50`. -/
theorem bounce_burst_stays_pending_witness :
    (PushButtonAutoRepeat.new 2 none 500 200 50 (0, 0)).toPushButton.debounceDelay = 50 ∧
    (runPolls PushButton.stateChanged
        (PushButtonAutoRepeat.new 2 none 500 200 50 (0, 0)).toPushButton.init
        (bouncePolls true)).map (fun r => (r.1.debounceWaiting, r.2)) =
      [(true, BUTTON_NOCHANGE), (true, BUTTON_NOCHANGE), (true, BUTTON_NOCHANGE),
        (true, BUTTON_NOCHANGE)] :=
  ⟨rfl,
    (congrArg (List.map (fun r => (r.1.debounceWaiting, r.2)))
      (bounce_burst_stays_pending (PushButtonAutoRepeat.new 2 none 500 200 50 (0, 0)).toPushButton
        true rfl).1).trans (by decide)⟩

/-- C17 at a concrete input: a settled pressed button polled pressed three
times. -/
theorem stateChanged_idempotent_witness :
    scenarioAfter60.toPushButton.debounceWaiting = false ∧
    (runPolls PushButton.stateChanged scenarioAfter60.toPushButton
        [(true, 70), (true, 80), (true, 4000)]).map Prod.snd =
      [BUTTON_NOCHANGE, BUTTON_NOCHANGE, BUTTON_NOCHANGE] :=
  ⟨rfl,
    (congrArg (List.map Prod.snd)
      ((stateChanged_idempotent scenarioAfter60.toPushButton 70
        [(true, 70), (true, 80), (true, 4000)] rfl).2 (by decide))).trans (by decide)⟩

/-- C18 at a concrete input: time stamp `2 ^ 32 - 6`, elapsed time 100 ms; the
clock has wrapped to 94. -/
theorem window_test_wraparound_safe_witness :
    100 < ULONG_RANGE ∧ (4294967290 + 100) % ULONG_RANGE = 94 ∧ usub 94 4294967290 = 100 :=
  ⟨by decide, by decide, (window_test_wraparound_safe 4294967290 100 (by decide)).1⟩

/-- C19 (as amended) at a concrete input: a fixed-rate button without a
callback, polled pressed at `t = 0`; no branch fires and the poll completes. -/
theorem handle_needs_registered_callback_witness :
    (AutoRepeatButton.fixed
      (PushButtonAutoRepeat.new 2 none 500 200 50 (0, 0))).autoRepeatPart.keyPressCallback = none ∧
    ((AutoRepeatButton.fixed
      (PushButtonAutoRepeat.new 2 none 500 200 50 (0, 0))).handle true 0).2 = [] ∧
    (AutoRepeatButton.fixed
      (PushButtonAutoRepeat.new 2 none 500 200 50 (0, 0))).handleCalling true 0 =
      some (((AutoRepeatButton.fixed
        (PushButtonAutoRepeat.new 2 none 500 200 50 (0, 0))).handle true 0).1, []) :=
  ⟨rfl, by decide,
    ((handle_needs_registered_callback
      (AutoRepeatButton.fixed (PushButtonAutoRepeat.new 2 none 500 200 50 (0, 0)))
      true 0 0).1 rfl).1 (by decide)⟩

/-! ### The held duration on reachable states -/

/-- One poll of `heldDown` at a clock value `t` not before `lo`, without
wraparound: the result is 0 or more than `debounceDelay`, and the time stamp
lies far enough before `t` afterwards. -/
theorem heldDown_settledBefore (b : PushButtonAutoRepeat) (raw : Bool) (lo t : Nat)
    (hinv : SettledBefore b.toPushButton lo) (hlo : lo ≤ t) (ht : t < ULONG_RANGE) :
    SettledBefore (b.heldDown raw t).1.toPushButton t ∧
    ((b.heldDown raw t).2 = 0 ∨ (b.heldDown raw t).2 > b.debounceDelay) := by
  obtain ⟨⟨pin, dd, ts, w, prev, sp⟩, rd, rp, cb, lc⟩ := b
  simp only [SettledBefore] at hinv ⊢
  cases w with
  | false =>
    cases prev with
    | false =>
      cases raw <;> simp [PushButtonAutoRepeat.heldDown]
    | true =>
      cases raw with
      | false => simp [PushButtonAutoRepeat.heldDown]
      | true =>
        have hlt : ts + dd < lo := hinv.2 rfl rfl
        have hus : usub t ts = t - ts := usub_eq_sub (by omega) ht
        simp only [PushButtonAutoRepeat.heldDown, hus]
        simp
        omega
  | true =>
    have hts : ts ≤ lo := hinv.1 rfl
    have hus : usub t ts = t - ts := usub_eq_sub (by omega) ht
    by_cases hlate : t - ts > dd
    · cases prev <;> cases raw <;>
        simp [PushButtonAutoRepeat.heldDown, hus, hlate] <;> omega
    · cases prev <;> cases raw <;>
        simp [PushButtonAutoRepeat.heldDown, hus, hlate] <;> omega

theorem handle_settledBefore (v : AutoRepeatButton) (raw : Bool) (lo t : Nat)
    (hinv : SettledBefore v.base lo) (hlo : lo ≤ t) (ht : t < ULONG_RANGE) :
    SettledBefore (v.handle raw t).1.base t ∧
    ((v.autoRepeatPart.heldDown raw t).2 = 0 ∨
      (v.autoRepeatPart.heldDown raw t).2 > v.base.debounceDelay) := by
  have h := heldDown_settledBefore v.autoRepeatPart raw lo t
    (by rw [autoRepeatPart_base]; exact hinv) hlo ht
  have hdd : v.autoRepeatPart.debounceDelay = v.base.debounceDelay :=
    congrArg PushButton.debounceDelay (autoRepeatPart_base v)
  rw [hdd] at h
  refine ⟨?_, h.2⟩
  rw [(handle_base v raw t).1]
  exact h.1

theorem init_settledBefore (v : AutoRepeatButton) (lo : Nat) :
    SettledBefore v.init.base lo := by
  cases v <;>
    exact ⟨fun h => absurd h (by simp [AutoRepeatButton.init, AutoRepeatButton.base,
        PushButtonAutoRepeat.init, PushButton.init]),
      fun _ h => absurd h (by simp [AutoRepeatButton.init, AutoRepeatButton.base,
        PushButtonAutoRepeat.init, PushButton.init])⟩

/-- On a non-decreasing clock without wraparound, every held duration of a run
of `handle()` is 0 or more than `debounceDelay`. -/
theorem heldTrace_zero_or_settled (polls : List (Bool × Nat)) :
    ∀ (v : AutoRepeatButton) (lo : Nat), SettledBefore v.base lo →
      (∀ p ∈ polls, lo ≤ p.2 ∧ p.2 < ULONG_RANGE) →
      (polls.map Prod.snd).Pairwise (· ≤ ·) →
      ∀ d ∈ heldTrace v polls, d = 0 ∨ d > v.base.debounceDelay := by
  induction polls with
  | nil => intro v lo _ _ _ d hd; simp [heldTrace] at hd
  | cons p ps ih =>
    intro v lo hinv hall hsorted d hd
    obtain ⟨hlo, hpw⟩ := hall p (List.mem_cons_self p ps)
    obtain ⟨hinv1, hheld⟩ := handle_settledBefore v p.1 lo p.2 hinv hlo hpw
    rw [List.map_cons, List.pairwise_cons] at hsorted
    simp only [heldTrace, List.mem_cons] at hd
    rcases hd with rfl | hd
    · exact hheld
    · have h := ih (v.handle p.1 p.2).1 p.2 hinv1
        (fun q hq => ⟨hsorted.1 q.2 (List.mem_map_of_mem Prod.snd hq),
          (hall q (List.mem_cons_of_mem p hq)).2⟩) hsorted.2 d hd
      rw [handle_debounceDelay] at h
      exact h

/-- On a non-decreasing clock without wraparound, every result of a run of
`heldDown()` is 0 or more than `debounceDelay`. -/
theorem heldDown_run_zero_or_settled (polls : List (Bool × Nat)) :
    ∀ (b : PushButtonAutoRepeat) (lo : Nat), SettledBefore b.toPushButton lo →
      (∀ p ∈ polls, lo ≤ p.2 ∧ p.2 < ULONG_RANGE) →
      (polls.map Prod.snd).Pairwise (· ≤ ·) →
      ∀ r ∈ runPolls PushButtonAutoRepeat.heldDown b polls,
        r.2 = 0 ∨ r.2 > b.debounceDelay := by
  induction polls with
  | nil => intro b lo _ _ _ r hr; simp [runPolls] at hr
  | cons p ps ih =>
    intro b lo hinv hall hsorted r hr
    obtain ⟨hlo, hpw⟩ := hall p (List.mem_cons_self p ps)
    obtain ⟨hinv1, hheld⟩ := heldDown_settledBefore b p.1 lo p.2 hinv hlo hpw
    rw [List.map_cons, List.pairwise_cons] at hsorted
    simp only [runPolls, List.mem_cons] at hr
    rcases hr with rfl | hr
    · exact hheld
    · have h := ih (b.heldDown p.1 p.2).1 p.2 hinv1
        (fun q hq => ⟨hsorted.1 q.2 (List.mem_map_of_mem Prod.snd hq),
          (hall q (List.mem_cons_of_mem p hq)).2⟩) hsorted.2 r hr
      rw [heldDown_debounceDelay] at h
      exact h

theorem firstNoticeTest_of_zero_or_settled (v : AutoRepeatButton) (d : Nat)
    (h : d = 0 ∨ d > v.base.debounceDelay) : v.firstNoticeTest d = (d != 0) := by
  rcases h with rfl | h
  · rw [firstNoticeTest_zero]; rfl
  · rw [firstNoticeTest_of_gt v d h]
    have hne : d ≠ 0 := by omega
    simp [hne]

/-- C21. The two first-notice tests agree on reachable states. From the
initialised object, on every sequence of polls whose clock is non-decreasing
and does not wrap around: every value that `heldDown()` returns is 0 or
strictly greater than `debounceDelay`, both on a run of `heldDown()` itself and
on the calls that the polls of `handle()` of any of the three classes make.
Therefore the test `bpDur != 0` of the fixed-rate class and the test
`bpDur > debounceDelay` of the two derived classes have the same truth value
on every poll, and each class's own test equals `bpDur != 0`. -/
theorem first_notice_tests_agree (v : AutoRepeatButton) (b0 : PushButtonAutoRepeat)
    (polls : List (Bool × Nat))
    (hclock : (polls.map Prod.snd).Pairwise (· ≤ ·))
    (hwrap : ∀ p ∈ polls, p.2 < ULONG_RANGE) :
    (∀ r ∈ runPolls PushButtonAutoRepeat.heldDown b0.init polls,
      r.2 = 0 ∨ r.2 > b0.debounceDelay) ∧
    (∀ d ∈ heldTrace v.init polls,
      (d = 0 ∨ d > v.base.debounceDelay) ∧
      ((d != 0) = decide (d > v.base.debounceDelay)) ∧
      v.firstNoticeTest d = (d != 0)) := by
  constructor
  · exact heldDown_run_zero_or_settled polls b0.init 0
      ⟨fun h => absurd h (by simp [PushButtonAutoRepeat.init, PushButton.init]),
        fun _ h => absurd h (by simp [PushButtonAutoRepeat.init, PushButton.init])⟩
      (fun p hp => ⟨Nat.zero_le _, hwrap p hp⟩) hclock
  · intro d hd
    have h := heldTrace_zero_or_settled polls v.init 0 (init_settledBefore v 0)
      (fun p hp => ⟨Nat.zero_le _, hwrap p hp⟩) hclock d hd
    rw [init_debounceDelay] at h
    refine ⟨h, ?_, firstNoticeTest_of_zero_or_settled v d h⟩
    rcases h with rfl | h
    · simp
    · have hne : d ≠ 0 := by omega
      simp [hne, h]

/-! ### `heldDown` and `stateChanged` -/

/-- C22. `heldDown` runs the debounce logic of `stateChanged`: for every
object and every input, the two leave the same `PushButton` part (the same
`previousButtonState`, `debounceWaiting`, `stateChangedTimeStamp` and
`debounceDelay`), and `heldDown` changes no other member. On a poll that
commits a transition (the button was waiting and the debounce period is found
elapsed, or `previousButtonState` changes), `heldDown` returns a nonzero
value if and only if `stateChanged` returns `BUTTON_PRESSED`; and whenever
`stateChanged` returns `BUTTON_PRESSED`, `heldDown` returns a nonzero value. -/
theorem heldDown_refines_stateChanged (b : PushButtonAutoRepeat) (rawPressed : Bool)
    (nowMs : Nat) :
    (b.heldDown rawPressed nowMs).1.toPushButton =
      (b.toPushButton.stateChanged rawPressed nowMs).1 ∧
    (b.heldDown rawPressed nowMs).1 =
      { b with toPushButton := (b.toPushButton.stateChanged rawPressed nowMs).1 } ∧
    (b.debounceWaiting = true →
      usub nowMs b.stateChangedTimeStamp > b.debounceDelay →
      ((b.heldDown rawPressed nowMs).2 ≠ 0 ↔
        (b.toPushButton.stateChanged rawPressed nowMs).2 = BUTTON_PRESSED)) ∧
    ((b.toPushButton.stateChanged rawPressed nowMs).1.previousButtonState ≠
        b.previousButtonState →
      ((b.heldDown rawPressed nowMs).2 ≠ 0 ↔
        (b.toPushButton.stateChanged rawPressed nowMs).2 = BUTTON_PRESSED)) ∧
    ((b.toPushButton.stateChanged rawPressed nowMs).2 = BUTTON_PRESSED →
      (b.heldDown rawPressed nowMs).2 ≠ 0) := by
  obtain ⟨⟨pin, dd, ts, w, prev, sp⟩, rd, rp, cb, lc⟩ := b
  by_cases hlate : usub nowMs ts > dd
  · have hne : usub nowMs ts ≠ 0 := by omega
    cases w <;> cases prev <;> cases rawPressed <;>
      simp [PushButtonAutoRepeat.heldDown, PushButton.stateChanged, edgeCode,
        BUTTON_NOCHANGE, BUTTON_PRESSED, BUTTON_RELEASED, hlate, hne]
  · cases w <;> cases prev <;> cases rawPressed <;>
      simp [PushButtonAutoRepeat.heldDown, PushButton.stateChanged, edgeCode,
        BUTTON_NOCHANGE, BUTTON_PRESSED, BUTTON_RELEASED, hlate]

/-- C21 at a concrete input: a two-speed button with debounce delay 50 ms on
the polls `glitchPolls`; the held durations are 0, 60, 0, 0, 70. -/
theorem first_notice_tests_agree_witness :
    (glitchPolls.map Prod.snd).Pairwise (· ≤ ·) ∧ (∀ p ∈ glitchPolls, p.2 < ULONG_RANGE) ∧
    heldTrace
        (AutoRepeatButton.twoSpeed
          (PushButton2SpeedAutoRepeat.new 2 none 500 200 2000 50 50 (0, 0))).init
        glitchPolls = [0, 60, 0, 0, 70] ∧
    (∀ d ∈ heldTrace
        (AutoRepeatButton.twoSpeed
          (PushButton2SpeedAutoRepeat.new 2 none 500 200 2000 50 50 (0, 0))).init
        glitchPolls,
      (d != 0) = decide (d >
        (AutoRepeatButton.twoSpeed
          (PushButton2SpeedAutoRepeat.new 2 none 500 200 2000 50 50 (0, 0))).base.debounceDelay)) :=
  ⟨by decide, by decide, by decide,
    fun d hd =>
      ((first_notice_tests_agree
        (AutoRepeatButton.twoSpeed
          (PushButton2SpeedAutoRepeat.new 2 none 500 200 2000 50 50 (0, 0)))
        (PushButtonAutoRepeat.new 2 none 500 200 50 (0, 0)) glitchPolls
        (by decide) (by decide)).2 d hd).2.1⟩

/-- C22 at a concrete input: a button with debounce delay 50 ms that spotted a
press at `t = 0`, polled pressed at `t = 60`; both members commit the press,
`stateChanged` returns `BUTTON_PRESSED` and `heldDown` returns 60. -/
theorem heldDown_refines_stateChanged_witness :
    (finalState PushButtonAutoRepeat.heldDown
        (PushButtonAutoRepeat.new 2 none 500 200 50 (0, 0)) [(true, 0)]).debounceWaiting = true ∧
    usub 60 (finalState PushButtonAutoRepeat.heldDown
        (PushButtonAutoRepeat.new 2 none 500 200 50 (0, 0)) [(true, 0)]).stateChangedTimeStamp >
      (finalState PushButtonAutoRepeat.heldDown
        (PushButtonAutoRepeat.new 2 none 500 200 50 (0, 0)) [(true, 0)]).debounceDelay ∧
    ((finalState PushButtonAutoRepeat.heldDown
        (PushButtonAutoRepeat.new 2 none 500 200 50 (0, 0)) [(true, 0)]).heldDown true 60).2 =
      60 ∧
    ((finalState PushButtonAutoRepeat.heldDown
        (PushButtonAutoRepeat.new 2 none 500 200 50 (0, 0))
        [(true, 0)]).toPushButton.stateChanged true 60).2 = BUTTON_PRESSED :=
  ⟨by decide, by decide, by decide,
    ((heldDown_refines_stateChanged
      (finalState PushButtonAutoRepeat.heldDown
        (PushButtonAutoRepeat.new 2 none 500 200 50 (0, 0)) [(true, 0)]) true 60).2.2.1
      (by decide) (by decide)).mp (by decide)⟩

end YaPushButton
